import Mathlib

/-!
Verification of the WeChat Markdown Studio document-transformation pipeline.

This file shallowly embeds the parts of the pipeline that the checked
properties are about:

* the renderable markup tree (`HNode`, mirroring the hast
  element/text nodes used by `packages/markdown-pipeline/src/index.ts`),
* the multi-image grouping pass (`groupConsecutiveImagesPlugin`),
* the highlight segmenter (`splitHighlightSegments`, `rehypeHighlightMark`),
* the export normalizer (`prepareWechatExportHtml`,
  `convertMultiImageGridToTable`),
* the source-position annotator (`remarkAttachSourceLine`) and the quality
  checker (`runQualityChecks`) over the structural (mdast) tree `MdNode`,
* the theme styling engine (`getHeadingStyle` and the other style getters).

JavaScript strings are modelled by Lean `String` (values are compared by
character; the few length checks in scope only involve BMP characters, where
UTF-16 length and codepoint count agree).  JavaScript objects used as
attribute maps are modelled as insertion-ordered association lists
(`Props`): assignment updates an existing key in place and appends a missing
key at the end, exactly like JS property assignment.
-/

/-- An attribute value as it occurs in hast/mdast property maps of this
codebase: either a string or a number (only integers occur). -/
inductive PropVal where
  | str (s : String)
  | num (n : Int)
deriving Repr, DecidableEq

/-- An insertion-ordered attribute map (JS object used as a record). -/
abbrev Props := List (String × PropVal)

/-- Reading `obj[key]` from a JS object modelled as an association list. -/
def getProp (ps : Props) (key : String) : Option PropVal :=
  (ps.find? (fun p => p.1 == key)).map (·.2)

/-- JS assignment `obj[key] = v`: overwrite in place if the key exists,
append at the end otherwise. -/
def setProp (ps : Props) (key : String) (v : PropVal) : Props :=
  match ps with
  | [] => [(key, v)]
  | (k', v') :: rest =>
    if k' == key then (key, v) :: rest else (k', v') :: setProp rest key v

/-- JS truthiness of an attribute lookup: `undefined`, `0` and `""` are
falsy, everything else is truthy. -/
def truthyProp : Option PropVal → Bool
  | none => false
  | some (.str s) => s ≠ ""
  | some (.num n) => n ≠ 0

/-- A renderable markup node (hast): an element with tag, attributes and
children, or a text node. -/
inductive HNode where
  | text (value : String)
  | element (tagName : String) (properties : Props) (children : List HNode)
deriving Repr

/-- Tag name of a node (`""` for text nodes). -/
def HNode.tag : HNode → String
  | .text _ => ""
  | .element t _ _ => t

/-- Properties of a node (`[]` for text nodes). -/
def HNode.props : HNode → Props
  | .text _ => []
  | .element _ p _ => p

/-- Children of a node (`[]` for text nodes). -/
def HNode.childList : HNode → List HNode
  | .text _ => []
  | .element _ _ cs => cs

mutual

/-- Decidable equality for markup nodes (the derive handler does not support
this nested inductive, so the instance is spelled out). -/
def HNode.decEq : (a b : HNode) → Decidable (a = b)
  | .text v, .text w =>
    if h : v = w then .isTrue (by rw [h]) else .isFalse (by simp [h])
  | .text _, .element _ _ _ => .isFalse (by simp)
  | .element _ _ _, .text _ => .isFalse (by simp)
  | .element t p cs, .element t' p' cs' =>
    if h1 : t = t' then
      if h2 : p = p' then
        match HNode.decEqList cs cs' with
        | .isTrue h3 => .isTrue (by rw [h1, h2, h3])
        | .isFalse h3 => .isFalse (by simp [h3])
      else .isFalse (by simp [h2])
    else .isFalse (by simp [h1])

/-- Decidable equality for lists of markup nodes. -/
def HNode.decEqList : (as bs : List HNode) → Decidable (as = bs)
  | [], [] => .isTrue rfl
  | [], _ :: _ => .isFalse (by simp)
  | _ :: _, [] => .isFalse (by simp)
  | a :: as, b :: bs =>
    match HNode.decEq a b, HNode.decEqList as bs with
    | .isTrue h1, .isTrue h2 => .isTrue (by rw [h1, h2])
    | .isFalse h1, _ => .isFalse (by simp [h1])
    | _, .isFalse h2 => .isFalse (by simp [h2])

end

instance : DecidableEq HNode := HNode.decEq

/-- A style value: a string or a number (theme numbers that can be
fractional, such as line heights, are modelled as rationals). -/
inductive StyleVal where
  | s (v : String)
  | n (v : Int)
  | q (v : Rat)
deriving Repr, DecidableEq

/-- An inline style declaration: an insertion-ordered record of CSS-ish
property names to optional values; a `none` value models a property whose
value is `undefined` in the source object literal. -/
abbrev InlineStyle := List (String × Option StyleVal)

/-- Rendering a style value the way JS template/number conversion does.
Integer values print without units; the rational case only arises for
line-height tokens, which no checked property inspects textually. -/
def StyleVal.render : StyleVal → String
  | .s v => v
  | .n v => toString v
  | .q v => toString v

/-- Source: theme-engine hyphenate; replaces each ASCII capital with a dash
followed by its lowercase form. -/
def hyphenate (prop : String) : String :=
  String.mk (prop.toList.flatMap (fun c => if c.isUpper then ['-', c.toLower] else [c]))

/-- Source: theme-engine styleObjectToString; drops undefined/empty values,
hyphenates keys and joins entries with semicolons. -/
def styleObjectToString (style : InlineStyle) : String :=
  String.intercalate ";"
    ((style.filter (fun p => match p.2 with
        | none => false
        | some (.s v) => v ≠ ""
        | some _ => true)).map
      (fun p => hyphenate p.1 ++ ":" ++ (p.2.getD (.s "")).render))

/-- Source: theme-engine mergeInlineStyleString; appends the rendered style
to an existing style string when the latter is non-empty. -/
def mergeInlineStyleString (base : Option String) (next : InlineStyle) : String :=
  let nextString := styleObjectToString next
  match base with
  | none => nextString
  | some b => if b = "" then nextString else b ++ ";" ++ nextString

/-- Character-level model of JS String.prototype.trim: strip whitespace
from both ends (computable in the kernel, unlike the byte-position-based
library trim). -/
def jsTrim (s : String) : String :=
  String.mk (((s.toList.dropWhile Char.isWhitespace).reverse.dropWhile
    Char.isWhitespace).reverse)

/-- Source: markdown-pipeline isWhitespaceText; a text node whose trimmed
value is empty. -/
def isWhitespaceText : HNode → Bool
  | .text v => jsTrim v = ""
  | .element _ _ _ => false

/-- Source: the paragraph loop inside extractImagesFromNode; collects the
img children of a paragraph, skipping whitespace text, and fails (returning
none, modelling the early return of the empty array) on any other child. -/
def paragraphImages : List HNode → Option (List HNode)
  | [] => some []
  | c :: rest =>
    match c with
    | .element "img" p cs => (paragraphImages rest).map ((HNode.element "img" p cs) :: ·)
    | _ =>
      if isWhitespaceText c then paragraphImages rest
      else none

/-- Source: markdown-pipeline extractImagesFromNode; a bare img yields
itself, a paragraph made only of imgs and whitespace yields its imgs, and
every other node yields no images. -/
def extractImagesFromNode (node : HNode) : List HNode :=
  match node with
  | .text _ => []
  | .element tag p cs =>
    if tag = "img" then [.element tag p cs]
    else if tag = "p" then (paragraphImages cs).getD []
    else []

/-- Character-level model of JS Number.parseInt(s, 10): skip leading
whitespace, read an optional sign and then a non-empty digit prefix;
none models NaN. -/
def parseIntPrefix (s : String) : Option Int :=
  let cs := s.toList.dropWhile Char.isWhitespace
  let signAndRest : Bool × List Char :=
    match cs with
    | '-' :: rest => (true, rest)
    | '+' :: rest => (false, rest)
    | _ => (false, cs)
  let digits := signAndRest.2.takeWhile Char.isDigit
  if digits.isEmpty then none
  else
    let mag : Nat := digits.foldl (fun acc c => acc * 10 + (c.toNat - '0'.toNat)) 0
    some (if signAndRest.1 then -(mag : Int) else (mag : Int))

/-- Source: markdown-pipeline getSourceLine; the first element in the list
whose data-source-line attribute is a number, or a string that parses as an
integer. -/
def getSourceLine : List HNode → Option Int
  | [] => none
  | node :: rest =>
    match node with
    | .element _ props _ =>
      (match getProp props "data-source-line" with
       | some (.num n) => some n
       | some (.str s) =>
         match parseIntPrefix s with
         | some n => some n
         | none => getSourceLine rest
       | none => getSourceLine rest)
    | .text _ => getSourceLine rest

/-- Source: markdown-pipeline createImageWrapperNode; wraps one img element
in a centering div, merging layout overrides into the img style and
defaulting loading to lazy. -/
def createImageWrapperNode (image : HNode) : HNode :=
  let properties := image.props
  let mergedStyle := mergeInlineStyleString
    (match getProp properties "style" with
     | some (.str s) => some s
     | _ => none)
    [("width", some (.s "100%")),
     ("height", some (.s "auto")),
     ("display", some (.s "block")),
     ("borderRadius", some (.s "8px")),
     ("objectFit", some (.s "cover"))]
  HNode.element "div"
    [("className", .str "wechat-multi-image-item"),
     ("style", .str "width:100%;overflow:hidden;border-radius:10px;background-color:#f5f7fb;display:flex;align-items:center;justify-content:center;padding:4px;")]
    [HNode.element "img"
      (setProp
        (setProp properties "style" (.str mergedStyle))
        "loading" ((getProp properties "loading").getD (.str "lazy")))
      []]

/-- Source: markdown-pipeline resolveGridColumns. -/
def resolveGridColumns (count : Nat) : Nat :=
  if count = 2 ∨ count = 4 then 2
  else if count = 3 then 3
  else if 5 ≤ count then 3 else 1

/-- Source: markdown-pipeline createMultiImageContainer; the grid container
div holding one wrapper per image, carrying the image count, the resolved
column count and (when truthy) the earliest source line. -/
def createMultiImageContainer (images : List HNode) (sourceLine : Option Int) : HNode :=
  let columns := resolveGridColumns images.length
  let containerStyle := String.intercalate ";"
    ["display:grid",
     "grid-template-columns:repeat(" ++ toString columns ++ ",1fr)",
     "gap:12px",
     "margin:24px auto",
     "width:100%",
     "max-width:760px",
     "align-items:stretch"]
  HNode.element "div"
    ([("className", .str "wechat-multi-image-grid"),
      ("style", .str containerStyle),
      ("data-image-count", .str (toString images.length)),
      ("data-columns", .str (toString columns))] ++
     (match sourceLine with
      | some l => if l = 0 then [] else [("data-source-line", PropVal.num l)]
      | none => []))
    (images.map createImageWrapperNode)

/-- A node the grouping scan consumes into the current run: whitespace-only
text, or a node from which at least one image is extracted (the condition of
the inner while loop of groupConsecutiveImagesPlugin). -/
def isRunNode (n : HNode) : Bool :=
  isWhitespaceText n || !(extractImagesFromNode n).isEmpty

/-- One iteration of the outer while loop of groupConsecutiveImagesPlugin,
acting on the sibling array and the scan index: consume the maximal run of
run nodes starting at the index; when it yields at least two images, splice
the consumed run down to a single grid container; in both cases resume at
the position right after the iteration's start. -/
def groupStep (children : List HNode) (index : Nat) : List HNode × Nat :=
  let seq := (children.drop index).takeWhile isRunNode
  let images := seq.flatMap extractImagesFromNode
  if 2 ≤ images.length then
    (children.take index ++
       createMultiImageContainer images (getSourceLine seq) ::
         children.drop (index + seq.length),
     index + 1)
  else
    (children, index + 1)

/-- The outer while loop of groupConsecutiveImagesPlugin, with an explicit
fuel argument standing for the (proved, see the termination claim) bound on
the number of iterations; every iteration strictly shrinks the measure
children.length - index, so fuel children.length is always enough. -/
def groupLoop : Nat → List HNode → Nat → List HNode
  | 0, children, _ => children
  | fuel + 1, children, index =>
    if index < children.length then
      groupLoop fuel (groupStep children index).1 (groupStep children index).2
    else children

/-- Source: markdown-pipeline groupConsecutiveImagesPlugin, acting on the
top-level sibling list of the markup tree. -/
def groupConsecutiveImagesPlugin (children : List HNode) : List HNode :=
  groupLoop children.length children 0

/-- Specification-shaped description of the grouping pass (fuelled):
decompose the sibling list into maximal runs of run nodes; a run extracting
at least two images becomes a single grid container, any other run passes
through unchanged, and nodes outside runs pass through unchanged. -/
def groupRunsSpecFuel : Nat → List HNode → List HNode
  | 0, l => l
  | _, [] => []
  | fuel + 1, x :: xs =>
    if isRunNode x then
      let run := (x :: xs).takeWhile isRunNode
      let rest := (x :: xs).dropWhile isRunNode
      let imgs := run.flatMap extractImagesFromNode
      if 2 ≤ imgs.length then
        createMultiImageContainer imgs (getSourceLine run) :: groupRunsSpecFuel fuel rest
      else run ++ groupRunsSpecFuel fuel rest
    else x :: groupRunsSpecFuel fuel xs

/-- The maximal-run description of the grouping pass, against which the
imperative loop is verified. -/
def groupRunsSpec (l : List HNode) : List HNode :=
  groupRunsSpecFuel l.length l

/-- One piece of a segmented text value: its characters and whether it came
from inside a highlight delimiter pair. -/
structure HighlightSegment where
  value : List Char
  marked : Bool
deriving Repr, DecidableEq

/-- Finds the first occurrence of the two-character token == in a character
list, splitting the list as before ++ == ++ after (scanning one character
at a time, looking at a two-character window). -/
def splitAtEqEq : List Char → Option (List Char × List Char)
  | [] => none
  | [_] => none
  | c1 :: c2 :: rest =>
    if c1 = '=' ∧ c2 = '=' then some ([], rest)
    else (splitAtEqEq (c2 :: rest)).map (fun p => (c1 :: p.1, p.2))

/-- The leftmost match of the non-greedy pattern ==([^]+?)== starting from
the head of the list, as the JS regex engine finds it: the earliest opener
== that is followed, at least one character later, by a closer ==; the
capture is the shortest possible.  Returns (prefix before the match,
captured characters, suffix after the closer). -/
def findHighlightMatch : List Char → Option (List Char × List Char × List Char)
  | [] => none
  | [_] => none
  | [_, _] => none
  | c1 :: c2 :: c3 :: rest =>
    if c1 = '=' ∧ c2 = '=' then
      match splitAtEqEq rest with
      | some (cap, after) => some ([], c3 :: cap, after)
      | none => (findHighlightMatch (c2 :: c3 :: rest)).map (fun r => (c1 :: r.1, r.2))
    else (findHighlightMatch (c2 :: c3 :: rest)).map (fun r => (c1 :: r.1, r.2))

/-- The exec loop body of splitHighlightSegments (fuelled by the input
length, which strictly shrinks at every match): emit the plain gap before
the match when non-empty, emit the captured content as a marked segment
when non-empty, continue after the closer; when no further match exists the
non-empty remainder becomes a trailing plain segment. -/
def scanHighlightFuel : Nat → List Char → List HighlightSegment
  | 0, cs => if cs.isEmpty then [] else [⟨cs, false⟩]
  | fuel + 1, cs =>
    match findHighlightMatch cs with
    | none => if cs.isEmpty then [] else [⟨cs, false⟩]
    | some (pre, cap, after) =>
      (if pre.isEmpty then [] else [⟨pre, false⟩]) ++
      (if cap.isEmpty then [] else [⟨cap, true⟩]) ++
      scanHighlightFuel fuel after

/-- Source: markdown-pipeline splitHighlightSegments; null (none) exactly
when the value contains no complete delimited span. -/
def splitHighlightSegments (value : String) : Option (List HighlightSegment) :=
  match findHighlightMatch value.toList with
  | none => none
  | some _ => some (scanHighlightFuel value.toList.length value.toList)

/-- Source: markdown-pipeline shouldSkipHighlight on the text node's parent
element tag. -/
def shouldSkipHighlight (tagName : String) : Bool :=
  tagName = "code" || tagName = "pre" || tagName = "script" || tagName = "style"

/-- The hast node built for one segment: marked segments become mark
elements with a single text child, plain segments become text nodes. -/
def segmentToNode (seg : HighlightSegment) : HNode :=
  if seg.marked then
    HNode.element "mark" [] [HNode.text (String.mk seg.value)]
  else
    HNode.text (String.mk seg.value)

/-- Whether the character list contains the two-character token ==
(modelling value.indexOf of the delimiter being found). -/
def containsEqEq : List Char → Bool
  | [] => false
  | [_] => false
  | c1 :: c2 :: rest => (c1 = '=' && c2 = '=') || containsEqEq (c2 :: rest)

/-- The per-text-node action of rehypeHighlightMark: skipped when the value
is empty or contains no ==; none means the node is left in place. -/
def highlightTransformText (value : String) : Option (List HNode) :=
  if value = "" then none
  else if !(containsEqEq value.toList) then none
  else
    match splitHighlightSegments value with
    | none => none
    | some segments => some (segments.map segmentToNode)

mutual

/-- Source: the rehypeHighlightMark visitor, acting on one child of an
element whose tag is parentTag: a text child is segmented (unless the
parent's tag is skipped) and replaced by the resulting node sequence; an
element child is recursed into with itself as the new parent. -/
def highlightNode (parentTag : String) : HNode → List HNode
  | .text v =>
    if shouldSkipHighlight parentTag then [.text v]
    else
      match highlightTransformText v with
      | some nodes => nodes
      | none => [.text v]
  | .element t p cs => [.element t p (highlightChildren t cs)]

/-- Splices the per-child replacement sequences back into a child list. -/
def highlightChildren (parentTag : String) : List HNode → List HNode
  | [] => []
  | c :: cs => highlightNode parentTag c ++ highlightChildren parentTag cs

end

/-- Source: markdown-pipeline rehypeHighlightMark on the root's child list;
text nodes sitting directly under the root have no element parent and are
left alone, matching the visitor's parent check. -/
def rehypeHighlightMark (rootChildren : List HNode) : List HNode :=
  rootChildren.map (fun c =>
    match c with
    | .text v => .text v
    | .element t p cs => .element t p (highlightChildren t cs))

/-- Reading a DOM attribute as a string (getAttribute); numeric property
values serialize to their decimal form. -/
def getAttribute (ps : Props) (key : String) : Option String :=
  match getProp ps key with
  | some (.str s) => some s
  | some (.num n) => some (toString n)
  | none => none

/-- Splitting a string at each whitespace character (computable model of
the library split used for class-token lists). -/
def splitWsAux : List Char → List Char → List String
  | [], acc => [String.mk acc.reverse]
  | c :: rest, acc =>
    if c.isWhitespace then String.mk acc.reverse :: splitWsAux rest []
    else splitWsAux rest (c :: acc)

/-- The whitespace-separated pieces of a string. -/
def splitWhitespace (s : String) : List String := splitWsAux s.toList []

/-- Whether the class attribute of the property map contains the given
class token (the CSS class matching done by querySelectorAll). -/
def hasClassToken (ps : Props) (cls : String) : Bool :=
  (splitWhitespace ((getAttribute ps "className").getD "")).contains cls

mutual

/-- All nodes of the subtree rooted at this node (the node itself included)
carrying the given class, in document (pre-)order. -/
def nodesWithClassSelf (cls : String) : HNode → List HNode
  | .text _ => []
  | .element t p cs =>
    (if hasClassToken p cls then [HNode.element t p cs] else []) ++
      nodesWithClassList cls cs

/-- All nodes in the forest carrying the given class, in document order;
applied to an element's children this is querySelectorAll on the element. -/
def nodesWithClassList (cls : String) : List HNode → List HNode
  | [] => []
  | c :: cs => nodesWithClassSelf cls c ++ nodesWithClassList cls cs

end

mutual

/-- The first img element of a subtree in document order, the root
included. -/
def firstImgNode : HNode → Option HNode
  | .text _ => none
  | .element t p cs =>
    if t = "img" then some (.element t p cs) else firstImgList cs

/-- The first img element of a forest in document order; applied to an
element's children this is querySelector img on the element. -/
def firstImgList : List HNode → Option HNode
  | [] => none
  | c :: cs =>
    match firstImgNode c with
    | some i => some i
    | none => firstImgList cs

end

/-- Source: part_004 resolveColumns (the export-side copy of the grouping
formula). -/
def resolveColumns (count : Nat) : Nat :=
  if count = 3 ∨ 5 ≤ count then 3
  else if count = 2 ∨ count = 4 then 2
  else 1

/-- Column count used by convertMultiImageGridToTable: the parsed
data-columns attribute when it parses as an integer, the formula on the
item count otherwise. -/
def gridColumnsOf (props : Props) (itemCount : Nat) : Int :=
  match parseIntPrefix ((getAttribute props "data-columns").getD "") with
  | some k => k
  | none => (resolveColumns itemCount : Int)

/-- Decimal rendering of (100 / c).toFixed(2) for the positive column
counts that reach it (rounding to the nearest hundredth). -/
def toFixed2Of100Over (c : Nat) : String :=
  let scaled := (20000 + c) / (2 * c)
  toString (scaled / 100) ++ "." ++
    (if scaled % 100 < 10 then "0" else "") ++ toString (scaled % 100)

/-- The style string of the emitted table root. -/
def exportTableStyle : String :=
  String.intercalate ";"
    ["width:100% !important",
     "border-collapse:collapse !important",
     "margin:20px auto !important",
     "table-layout:fixed !important",
     "border:none !important",
     "background:transparent !important"]

/-- The style string of one emitted table cell. -/
def exportCellStyle (cellWidth : String) : String :=
  String.intercalate ";"
    ["padding:6px !important",
     "vertical-align:top !important",
     "width:" ++ cellWidth,
     "border:none !important",
     "background:transparent !important"]

/-- The style string of the outer centering container in a cell. -/
def exportOuterStyle : String :=
  String.intercalate ";"
    ["width:100% !important",
     "height:100% !important",
     "background-color:#f5f7fb !important",
     "border-radius:12px !important",
     "padding:10px !important",
     "box-sizing:border-box !important",
     "display:table !important"]

/-- The style string of the inner centering container in a cell. -/
def exportInnerStyle : String :=
  String.intercalate ";"
    ["display:table-cell !important",
     "vertical-align:middle !important",
     "text-align:center !important"]

/-- The deep-cloned image with the layout-safety overrides appended to its
existing style attribute (empty existing styles are filtered out before
joining). -/
def styledCloneImg (img : HNode) : HNode :=
  let existingStyle := (getAttribute img.props "style").getD ""
  let finalStyle := String.intercalate ";"
    ((existingStyle ::
      ["max-width:100% !important",
       "height:auto !important",
       "width:auto !important",
       "margin:0 auto !important",
       "display:inline-block !important"]).filter (· ≠ ""))
  match img with
  | .text v => .text v
  | .element t p cs => .element t (setProp p "style" (.str finalStyle)) cs

/-- One emitted table cell: the cell at this row-major index wraps the
first img of the corresponding wrapper item in two generic centering divs;
cells past the item count, and items without an img, stay empty. -/
def gridCell (items : List HNode) (cellWidth : String) (cellIndex : Nat) : HNode :=
  HNode.element "td" [("style", .str (exportCellStyle cellWidth))]
    (if cellIndex < items.length then
      match firstImgList (items.getD cellIndex (HNode.text "")).childList with
      | some img =>
        [HNode.element "div" [("style", .str exportOuterStyle)]
          [HNode.element "div" [("style", .str exportInnerStyle)]
            [styledCloneImg img]]]
      | none => []
     else [])

/-- Source: the per-grid body of part_004 convertMultiImageGridToTable.
Grids with fewer than two wrapper items are left alone.  The row loop runs
ceil(itemCount / columns) times; for columns below one the JS loop performs
no iteration (columns exactly zero would loop forever in the source, and
the checked claims are restricted to positive column counts). -/
def gridToTable (grid : HNode) : HNode :=
  match grid with
  | .text v => .text v
  | .element tag props children =>
    let items := nodesWithClassList "wechat-multi-image-item" children
    if items.length < 2 then .element tag props children
    else
      let columns := gridColumnsOf props items.length
      let tableProps : Props :=
        [("style", .str exportTableStyle)] ++
        (match getAttribute props "data-source-line" with
         | some s => if s = "" then [] else [("data-source-line", PropVal.str s)]
         | none => [])
      let colCount := columns.toNat
      let rows := if columns ≤ 0 then 0 else (items.length + colCount - 1) / colCount
      let cellWidth := toFixed2Of100Over colCount ++ "% !important"
      HNode.element "table" tableProps
        ((List.range rows).map (fun rowIndex =>
          HNode.element "tr" []
            ((List.range colCount).map (fun columnIndex =>
              gridCell items cellWidth (rowIndex * colCount + columnIndex)))))

mutual

/-- Source: part_004 convertMultiImageGridToTable, as a tree rewrite: each
grid-container element with at least two wrapper items is replaced by its
table; everything else is kept, recursing into children. -/
def convertNode : HNode → HNode
  | .text v => .text v
  | .element t p cs =>
    if hasClassToken p "wechat-multi-image-grid" then
      if 2 ≤ (nodesWithClassList "wechat-multi-image-item" cs).length then
        gridToTable (.element t p cs)
      else .element t p (convertList cs)
    else .element t p (convertList cs)

/-- The rewrite over a forest of sibling nodes. -/
def convertList : List HNode → List HNode
  | [] => []
  | c :: cs => convertNode c :: convertList cs

end

mutual

/-- Whether a subtree contains a grid-container element. -/
def containsGridNode : HNode → Bool
  | .text _ => false
  | .element _ p cs =>
    hasClassToken p "wechat-multi-image-grid" || containsGridList cs

/-- Whether a forest contains a grid-container element. -/
def containsGridList : List HNode → Bool
  | [] => false
  | c :: cs => containsGridNode c || containsGridList cs

end

/-- Source: part_004 prepareWechatExportHtml.  The secondary HTML parse and
the final serialization happen in the browser DOM and are passed in as an
environment: parsed is the parsed body child list (none models any
parse/transform failure, which the source catches), serialize renders a
body child list back to markup text. -/
def prepareWechatExportHtml (html : String) (parsed : Option (List HNode))
    (serialize : List HNode → String) : String :=
  if jsTrim html = "" then html
  else
    match parsed with
    | none => html
    | some doc => serialize (convertList doc)

/-- A structural (mdast) document node.  One constructor carries the fields
the embedded passes read: the node kind, the recorded start position, the
heading depth, the link/image url and alt text, the text value of literal
nodes (none when the node kind has no value field), the hProperties bag the
annotator writes into, and the ordered children. -/
inductive MdNode where
  | mk (type : String) (startLine : Option Nat) (startColumn : Option Nat)
       (depth : Nat) (url : String) (alt : Option String) (value : Option String)
       (hProps : Props) (children : List MdNode)
deriving Repr

/-- The node kind. -/
def MdNode.type : MdNode → String
  | .mk t _ _ _ _ _ _ _ _ => t

/-- The recorded starting line, if any. -/
def MdNode.startLine : MdNode → Option Nat
  | .mk _ l _ _ _ _ _ _ _ => l

/-- The recorded starting column, if any. -/
def MdNode.startColumn : MdNode → Option Nat
  | .mk _ _ c _ _ _ _ _ _ => c

/-- The heading depth (meaningful on heading nodes). -/
def MdNode.depth : MdNode → Nat
  | .mk _ _ _ d _ _ _ _ _ => d

/-- The url (meaningful on link and image nodes). -/
def MdNode.url : MdNode → String
  | .mk _ _ _ _ u _ _ _ _ => u

/-- The alternative text (meaningful on image nodes). -/
def MdNode.alt : MdNode → Option String
  | .mk _ _ _ _ _ a _ _ _ => a

/-- The literal value (present on text-like nodes). -/
def MdNode.value : MdNode → Option String
  | .mk _ _ _ _ _ _ v _ _ => v

/-- The hProperties attribute bag. -/
def MdNode.hProps : MdNode → Props
  | .mk _ _ _ _ _ _ _ p _ => p

/-- The ordered children. -/
def MdNode.children : MdNode → List MdNode
  | .mk _ _ _ _ _ _ _ _ cs => cs

/-- Source: the highlightableTypes allow-list of block kinds that receive a
source-line attribute. -/
def highlightableTypes : List String :=
  ["paragraph", "heading", "list", "listItem", "blockquote", "code",
   "image", "link", "table", "html", "thematicBreak"]

/-- The per-node attribute update of remarkAttachSourceLine: on an
allow-listed kind with a truthy recorded line, write the line into
data-source-line unless a truthy value is already there (the JS guard is a
truthiness test, so a present 0 or empty-string value is overwritten). -/
def attachSourceLineProps (type : String) (startLine : Option Nat) (props : Props) : Props :=
  if highlightableTypes.contains type then
    match startLine with
    | some l =>
      if l = 0 then props
      else if truthyProp (getProp props "data-source-line") then props
      else setProp props "data-source-line" (.num (l : Int))
    | none => props
  else props

mutual

/-- Source: markdown-pipeline remarkAttachSourceLine; visits every node and
applies the per-node attribute update. -/
def remarkAttachSourceLine : MdNode → MdNode
  | .mk t l c d u a v p ch =>
    .mk t l c d u a v (attachSourceLineProps t l p) (remarkAttachSourceLineList ch)

/-- The annotator over a list of sibling nodes. -/
def remarkAttachSourceLineList : List MdNode → List MdNode
  | [] => []
  | n :: ns => remarkAttachSourceLine n :: remarkAttachSourceLineList ns

end

mutual

/-- All nodes of a structural subtree in visit (pre-)order, the root
first. -/
def mdPreorder : MdNode → List MdNode
  | .mk t l c d u a v p ch => .mk t l c d u a v p ch :: mdPreorderList ch

/-- Preorder traversal of a forest. -/
def mdPreorderList : List MdNode → List MdNode
  | [] => []
  | n :: ns => mdPreorder n ++ mdPreorderList ns

end

/-- A quality issue: its kind, human-readable message and optional source
location. -/
structure QualityIssue where
  type : String
  message : String
  location : Option (Nat × Nat)
deriving Repr, DecidableEq

/-- Source: markdown-pipeline toLocation; a location only when both start
line and start column are recorded. -/
def toLocation (n : MdNode) : Option (Nat × Nat) :=
  match n.startLine, n.startColumn with
  | some l, some c => some (l, c)
  | _, _ => none

/-- The joined, trimmed plain text of a heading's direct children (children
without a value field contribute the empty string). -/
def headingText (n : MdNode) : String :=
  jsTrim (String.join (n.children.map (fun c => (c.value).getD "")))

/-- The message of a heading-depth-jump structure issue. -/
def jumpMessage (prev cur : Nat) : String :=
  s!"标题层级从 H{prev} 跳跃到 H{cur}，建议按顺序递进。"

/-- The message of an over-long-heading structure issue. -/
def longTitleMessage (txt : String) : String :=
  s!"标题“{txt.take 20}…”较长，建议控制在 48 字以内以提升阅读体验。"

/-- The heading visit of runQualityChecks: walks the headings in document
order carrying the depth of the previously seen heading as one running
value; emits a structure issue when the depth jumps by more than one
relative to that value, and a structure issue when the heading text exceeds
48 characters. -/
def headingIssuesGo : Option Nat → List MdNode → List QualityIssue
  | _, [] => []
  | last, h :: rest =>
    (match last with
     | some d =>
       if d + 1 < h.depth then [⟨"structure", jumpMessage d h.depth, toLocation h⟩]
       else []
     | none => []) ++
    (if 48 < (headingText h).length then
      [⟨"structure", longTitleMessage (headingText h), toLocation h⟩]
     else []) ++
    headingIssuesGo (some h.depth) rest

/-- Whether the pattern occurs as a contiguous subsequence (JS
String.includes). -/
def containsSeq (pat : List Char) : List Char → Bool
  | [] => pat.isEmpty
  | c :: rest => pat.isPrefixOf (c :: rest) || containsSeq pat rest

/-- The link visit of runQualityChecks on one link node. -/
def linkIssuesOf (n : MdNode) : List QualityIssue :=
  (if n.url.startsWith "http://" then
    [⟨"link-protocol", s!"链接 \"{n.url}\" 非 HTTPS，微信可能会拦截或提示风险。", toLocation n⟩]
   else []) ++
  (if n.children.isEmpty then
    [⟨"accessibility", s!"链接 \"{n.url}\" 缺少可读文本，建议补充描述。", toLocation n⟩]
   else [])

/-- The image visit of runQualityChecks on one image node. -/
def imageIssuesOf (n : MdNode) : List QualityIssue :=
  (if !(containsSeq "://".toList n.url.toList) && !(n.url.startsWith "data:") then
    [⟨"image-reference", s!"图片 \"{n.url}\" 可能为本地路径，建议使用公网地址或上传至素材库。", toLocation n⟩]
   else []) ++
  (if n.url.startsWith "http://" then
    [⟨"link-protocol", s!"图片链接 \"{n.url}\" 非 HTTPS，微信可能无法正常加载。", toLocation n⟩]
   else []) ++
  (if (match n.alt with | none => true | some a => jsTrim a = "") then
    [⟨"accessibility", s!"图片 \"{n.url}\" 缺少替代文本 (alt)，建议补充以提升可访问性。", toLocation n⟩]
   else [])

/-- The raw-html visit of runQualityChecks on one html node. -/
def htmlIssuesOf (n : MdNode) : List QualityIssue :=
  [⟨"html-embed", "检测到内嵌 HTML 代码，发布到公众号前请确认兼容性与安全性。", toLocation n⟩]

/-- Source: markdown-pipeline runQualityChecks on an already-parsed
structural tree (the raw-text parse happens in the external parser): the
four visits run one after the other, each over the tree in document order,
appending into one issue list. -/
def runQualityChecks (tree : MdNode) : List QualityIssue :=
  let nodes := mdPreorder tree
  headingIssuesGo none (nodes.filter (fun n => n.type == "heading")) ++
  (nodes.filter (fun n => n.type == "link")).flatMap linkIssuesOf ++
  (nodes.filter (fun n => n.type == "image")).flatMap imageIssuesOf ++
  (nodes.filter (fun n => n.type == "html")).flatMap htmlIssuesOf

/-- Typography settings of one text role (heading or body). -/
structure TypographyRole where
  lineHeight : Rat
  weight : Int
  fontFamily : Option String
deriving Repr, DecidableEq

/-- The typography block of the theme tokens. -/
structure ThemeTypography where
  fontFamily : String
  heading : TypographyRole
  body : TypographyRole
deriving Repr, DecidableEq

/-- Optional border tokens. -/
structure ThemeBorder where
  radius : Option Int
  width : Option Int
deriving Repr, DecidableEq

/-- The token block of a theme: named colors, typography, named spacings
and optional border settings. -/
structure ThemeTokens where
  color : List (String × String)
  typography : ThemeTypography
  spacing : List (String × Int)
  border : Option ThemeBorder
deriving Repr, DecidableEq

/-- Descriptive metadata of a theme. -/
structure ThemeMetadata where
  name : String
  author : Option String
  description : Option String
  tags : Option (List String)
deriving Repr, DecidableEq

/-- The heading override read from the open components bag for one level. -/
structure HeadingOverride where
  fontSize : Option Int
  fontWeight : Option Int
deriving Repr, DecidableEq

/-- The paragraph override read from the components bag. -/
structure ParagraphOverride where
  maxWidth : Option Int
deriving Repr, DecidableEq

/-- The blockquote override read from the components bag. -/
structure BlockquoteOverride where
  accentColor : Option String
  borderWidth : Option Int
  background : Option String
deriving Repr, DecidableEq

/-- The components bag, typed at exactly the paths the style getters read
(the source keeps it as an open record and casts at each read site). -/
structure ThemeComponents where
  heading : Option (List (String × HeadingOverride))
  paragraph : Option ParagraphOverride
  blockquote : Option BlockquoteOverride
deriving Repr, DecidableEq

/-- A schema-shaped theme definition. -/
structure ThemeDefinition where
  id : String
  version : String
  metadata : ThemeMetadata
  tokens : ThemeTokens
  components : ThemeComponents
deriving Repr, DecidableEq

/-- Palette lookup theme.tokens.color[key]. -/
def colorGet (theme : ThemeDefinition) (key : String) : Option String :=
  (theme.tokens.color.find? (fun p => p.1 == key)).map (·.2)

/-- Spacing lookup theme.tokens.spacing[key]. -/
def spacingGet (theme : ThemeDefinition) (key : String) : Option Int :=
  (theme.tokens.spacing.find? (fun p => p.1 == key)).map (·.2)

/-- Source: theme-engine resolveHeadingFontFamily. -/
def resolveHeadingFontFamily (theme : ThemeDefinition) : String :=
  theme.tokens.typography.heading.fontFamily.getD theme.tokens.typography.fontFamily

/-- Source: theme-engine resolveBodyFontFamily. -/
def resolveBodyFontFamily (theme : ThemeDefinition) : String :=
  theme.tokens.typography.body.fontFamily.getD theme.tokens.typography.fontFamily

/-- Source: theme-engine getParagraphStyle. -/
def getParagraphStyle (theme : ThemeDefinition) : InlineStyle :=
  let paragraph := theme.components.paragraph
  [("color", (colorGet theme "text").map .s),
   ("fontFamily", some (.s (resolveBodyFontFamily theme))),
   ("fontWeight", some (.n theme.tokens.typography.body.weight)),
   ("lineHeight", some (.q theme.tokens.typography.body.lineHeight)),
   ("fontSize", some (.s "16px")),
   ("marginBottom", some (.s (toString ((spacingGet theme "paragraph").getD 16) ++ "px"))),
   ("maxWidth", (paragraph.bind (·.maxWidth)).bind
      (fun w => if w = 0 then none else some (.s (toString w ++ "px"))))]

/-- The heading override for h1..h6 as read by getHeadingStyle:
components.heading?.[h-level]. -/
def headingOverrideFor (theme : ThemeDefinition) (level : Nat) : Option HeadingOverride :=
  theme.components.heading.bind
    (fun m => (m.find? (fun p => p.1 == "h" ++ toString level)).map (·.2))

/-- Source: theme-engine getHeadingStyle. -/
def getHeadingStyle (theme : ThemeDefinition) (level : Nat) : InlineStyle :=
  let heading := headingOverrideFor theme level
  let sizeFallback : Int := max 16 (36 - ((level : Int) - 1) * 4)
  [("color", (colorGet theme "text").map .s),
   ("fontFamily", some (.s (resolveHeadingFontFamily theme))),
   ("fontWeight", some (.n ((heading.bind (·.fontWeight)).getD theme.tokens.typography.heading.weight))),
   ("lineHeight", some (.q theme.tokens.typography.heading.lineHeight)),
   ("fontSize", some (.s (toString ((heading.bind (·.fontSize)).getD sizeFallback) ++ "px"))),
   ("marginTop", some (.s (if level = 1 then "0"
      else toString ((spacingGet theme "section").getD 24) ++ "px"))),
   ("marginBottom", some (.s (toString ((spacingGet theme "paragraph").getD 16) ++ "px")))]

/-- Source: theme-engine getBlockquoteStyle; the accent color resolves
through the palette when the key is truthy and hits a truthy palette entry,
else falls back to the literal accent color when present, else to the
primary color; an absent resolved color interpolates as the string
undefined, as JS template strings do. -/
def getBlockquoteStyle (theme : ThemeDefinition) : InlineStyle :=
  let blockquote := theme.components.blockquote
  let borderColorKey := blockquote.bind (·.accentColor)
  let palette := borderColorKey.bind (fun k => colorGet theme k)
  let borderColor : Option String :=
    if ((match borderColorKey with | some k => k != "" | none => false) &&
        (match palette with | some c => c != "" | none => false)) then palette
    else
      match borderColorKey with
      | some k => some k
      | none => colorGet theme "primary"
  [("color", (colorGet theme "text").map .s),
   ("fontFamily", some (.s (resolveBodyFontFamily theme))),
   ("lineHeight", some (.q theme.tokens.typography.body.lineHeight)),
   ("padding", some (.s (toString ((spacingGet theme "paragraph").getD 16) ++ "px"))),
   ("margin", some (.s (toString ((spacingGet theme "paragraph").getD 16) ++ "px 0"))),
   ("borderLeft", some (.s (toString ((blockquote.bind (·.borderWidth)).getD 3) ++
      "px solid " ++ (borderColor.getD "undefined")))),
   ("background", some (.s ((blockquote.bind (·.background)).getD
      ((colorGet theme "muted").getD "#F5F8FF"))))]

/-- Source: theme-engine getListStyle. -/
def getListStyle (theme : ThemeDefinition) : InlineStyle :=
  [("color", (colorGet theme "text").map .s),
   ("fontFamily", some (.s (resolveBodyFontFamily theme))),
   ("lineHeight", some (.q theme.tokens.typography.body.lineHeight)),
   ("marginBottom", some (.s (toString ((spacingGet theme "paragraph").getD 16) ++ "px"))),
   ("paddingLeft", some (.s "24px"))]

/-- Source: theme-engine getListItemStyle; Math.round(base / 2) is
floor((base + 1) / 2) on integers. -/
def getListItemStyle (theme : ThemeDefinition) : InlineStyle :=
  let baseSpacing := (spacingGet theme "paragraph").getD 16
  [("marginBottom", some (.s (toString ((baseSpacing + 1).fdiv 2) ++ "px")))]

/-- Source: theme-engine getLinkStyle. -/
def getLinkStyle (theme : ThemeDefinition) : InlineStyle :=
  [("color", (colorGet theme "primary").map .s),
   ("textDecoration", some (.s "none")),
   ("fontFamily", some (.s (resolveBodyFontFamily theme)))]

/-- Source: theme-engine getTableStyle. -/
def getTableStyle (theme : ThemeDefinition) : InlineStyle :=
  [("width", some (.s "100%")),
   ("borderCollapse", some (.s "collapse")),
   ("margin", some (.s (toString ((spacingGet theme "paragraph").getD 16) ++ "px 0"))),
   ("fontFamily", some (.s (resolveBodyFontFamily theme))),
   ("background", some (.s "#ffffff")),
   ("borderRadius", some (.s "16px")),
   ("boxShadow", some (.s "0 18px 40px rgba(15, 23, 42, 0.12)")),
   ("borderSpacing", some (.n 0)),
   ("overflow", some (.s "hidden")),
   ("border", some (.s "1px solid rgba(15, 23, 42, 0.08)"))]

/-- Source: theme-engine getTableHeaderStyle. -/
def getTableHeaderStyle (theme : ThemeDefinition) : InlineStyle :=
  [("background", (colorGet theme "primary").map .s),
   ("color", some (.s "#ffffff")),
   ("textAlign", some (.s "left")),
   ("padding", some (.s "14px 18px")),
   ("fontWeight", some (.n 600)),
   ("fontSize", some (.s "14px")),
   ("borderBottom", some (.s "1px solid rgba(255,255,255,0.2)"))]

/-- Source: theme-engine getTableCellStyle. -/
def getTableCellStyle (theme : ThemeDefinition) : InlineStyle :=
  [("padding", some (.s "14px 18px")),
   ("borderBottom", some (.s "1px solid rgba(15, 23, 42, 0.06)")),
   ("fontSize", some (.s "13px")),
   ("color", (colorGet theme "text").map .s),
   ("background", some (.s "#ffffff"))]

/-- Source: theme-engine getCodeBlockStyle. -/
def getCodeBlockStyle (theme : ThemeDefinition) : InlineStyle :=
  [("fontFamily", some (.s "\"JetBrains Mono\", Consolas, \"Liberation Mono\", Menlo, Courier, monospace")),
   ("background", some (.s "#121826")),
   ("color", some (.s "#f8fafc")),
   ("padding", some (.s "32px 24px 24px")),
   ("borderRadius", some (.s "18px")),
   ("margin", some (.s (toString ((spacingGet theme "paragraph").getD 16) ++ "px 0"))),
   ("overflowX", some (.s "auto")),
   ("boxShadow", some (.s "0 24px 48px rgba(15, 23, 42, 0.32)")),
   ("border", some (.s "1px solid rgba(255,255,255,0.08)")),
   ("position", some (.s "relative"))]

/-- Source: theme-engine getInlineCodeStyle. -/
def getInlineCodeStyle (theme : ThemeDefinition) : InlineStyle :=
  [("fontFamily", some (.s "\"JetBrains Mono\", Consolas, \"Liberation Mono\", Menlo, Courier, monospace")),
   ("background", some (.s "rgba(37, 99, 235, 0.08)")),
   ("color", (colorGet theme "primary").map .s),
   ("padding", some (.s "2px 6px")),
   ("borderRadius", some (.s "6px")),
   ("fontSize", some (.s "12px"))]

/-- Source: markdown-pipeline applyInlineStyle; merges the computed style
into the node's style attribute (non-string existing styles count as
absent). -/
def applyInlineStyle (props : Props) (style : InlineStyle) : Props :=
  let existing :=
    match getProp props "style" with
    | some (.str s) => some s
    | _ => none
  setProp props "style" (.str (mergeInlineStyleString existing style))

/-- The style literal applied to block code (code directly under pre). -/
def blockCodeStyle : InlineStyle :=
  [("fontFamily", some (.s "\"JetBrains Mono\", Consolas, \"Liberation Mono\", Menlo, Courier, monospace")),
   ("fontSize", some (.s "13px")),
   ("display", some (.s "block")),
   ("margin", some (.n 0))]

/-- The tag switch of the createThemePlugin visitor on one element's
properties; parentTag is the tag of the enclosing element, if any (it
decides the block-code case and nothing else). -/
def styleElementProps (theme : ThemeDefinition) (parentTag : Option String)
    (tag : String) (props : Props) : Props :=
  match tag with
  | "p" => applyInlineStyle props (getParagraphStyle theme)
  | "h1" => applyInlineStyle props (getHeadingStyle theme 1)
  | "h2" => applyInlineStyle props (getHeadingStyle theme 2)
  | "h3" => applyInlineStyle props (getHeadingStyle theme 3)
  | "h4" => applyInlineStyle props (getHeadingStyle theme 4)
  | "h5" => applyInlineStyle props (getHeadingStyle theme 5)
  | "h6" => applyInlineStyle props (getHeadingStyle theme 6)
  | "blockquote" => applyInlineStyle props (getBlockquoteStyle theme)
  | "ul" => applyInlineStyle props (getListStyle theme)
  | "ol" => applyInlineStyle props (getListStyle theme)
  | "li" => applyInlineStyle props (getListItemStyle theme)
  | "table" => applyInlineStyle props (getTableStyle theme)
  | "th" => applyInlineStyle props (getTableHeaderStyle theme)
  | "td" => applyInlineStyle props (getTableCellStyle theme)
  | "pre" => applyInlineStyle props (getCodeBlockStyle theme)
  | "code" =>
    if parentTag = some "pre" then applyInlineStyle props blockCodeStyle
    else applyInlineStyle props (getInlineCodeStyle theme)
  | "a" =>
    let p2 := applyInlineStyle props (getLinkStyle theme)
    setProp
      (setProp p2 "target" ((getProp p2 "target").getD (.str "_blank")))
      "rel" ((getProp p2 "rel").getD (.str "noopener noreferrer"))
  | "img" =>
    let p2 := applyInlineStyle props
      [("maxWidth", some (.s "100%")), ("height", some (.s "auto")),
       ("borderRadius", some (.s "4px"))]
    setProp p2 "loading" ((getProp p2 "loading").getD (.str "lazy"))
  | "dl" =>
    applyInlineStyle props
      [("margin", some (.s (toString ((spacingGet theme "paragraph").getD 16) ++ "px 0"))),
       ("paddingLeft", some (.s "0"))]
  | "dt" =>
    applyInlineStyle props
      [("fontWeight", some (.n 600)),
       ("marginTop", some (.s "12px")),
       ("color", (colorGet theme "text").map .s)]
  | "dd" =>
    applyInlineStyle props
      [("marginLeft", some (.s "16px")),
       ("color", (colorGet theme "text").map .s),
       ("lineHeight", some (.q theme.tokens.typography.body.lineHeight))]
  | "mark" =>
    applyInlineStyle props
      [("background", some (.s "#fef08a")),
       ("padding", some (.s "0 4px")),
       ("borderRadius", some (.s "4px"))]
  | "sup" => applyInlineStyle props [("fontSize", some (.s "0.85em"))]
  | "sub" => applyInlineStyle props [("fontSize", some (.s "0.85em"))]
  | _ => props

mutual

/-- Source: the createThemePlugin visitor over one node, carrying the tag
of the parent element (none directly under the root). -/
def applyThemeNode (theme : ThemeDefinition) (parentTag : Option String) : HNode → HNode
  | .text v => .text v
  | .element t p cs =>
    .element t (styleElementProps theme parentTag t p) (applyThemeList theme (some t) cs)

/-- The theme plugin over a list of sibling nodes. -/
def applyThemeList (theme : ThemeDefinition) (parentTag : Option String) : List HNode → List HNode
  | [] => []
  | c :: cs => applyThemeNode theme parentTag c :: applyThemeList theme parentTag cs

end

/-- Source: markdown-pipeline createThemePlugin applied to the root's child
list. -/
def createThemePlugin (theme : ThemeDefinition) (rootChildren : List HNode) : List HNode :=
  applyThemeList theme none rootChildren

/-- A computation that carries the theme object as explicit state: the
state-passing reading of the styling code, used to express that no styling
operation writes to the theme (the source performs only reads on it, so the
translation threads the theme through every call and returns it). -/
def ThemeSt (α : Type) : Type := ThemeDefinition → α × ThemeDefinition

/-- A read of the theme state. -/
def readThemeWith {α : Type} (f : ThemeDefinition → α) : ThemeSt α :=
  fun theme => (f theme, theme)

/-- The tag switch of the visitor with the theme threaded as state: every
getter call reads the theme and hands it back. -/
def styleElementPropsSt (parentTag : Option String) (tag : String) (props : Props) :
    ThemeSt Props :=
  readThemeWith (fun theme => styleElementProps theme parentTag tag props)

mutual

/-- The theme plugin over one node with the theme threaded as state through
the visit of the node and of all its children. -/
def applyThemeNodeSt (parentTag : Option String) : HNode → ThemeSt HNode
  | .text v => fun theme => (.text v, theme)
  | .element t p cs => fun theme =>
    let sp := styleElementPropsSt parentTag t p theme
    let scs := applyThemeListSt (some t) cs sp.2
    (.element t sp.1 scs.1, scs.2)

/-- The theme plugin over a sibling list with the theme threaded as state
left to right. -/
def applyThemeListSt (parentTag : Option String) : List HNode → ThemeSt (List HNode)
  | [] => fun theme => ([], theme)
  | c :: cs => fun theme =>
    let r1 := applyThemeNodeSt parentTag c theme
    let r2 := applyThemeListSt parentTag cs r1.2
    (r1.1 :: r2.1, r2.2)

end

/-- createThemePlugin with the theme threaded as state. -/
def createThemePluginSt (rootChildren : List HNode) : ThemeSt (List HNode) :=
  applyThemeListSt none rootChildren

/-- Lookup of one property in an inline style declaration (outer none: the
key is absent; inner none: the key is present with an undefined value). -/
def styleLookup (style : InlineStyle) (key : String) : Option (Option StyleVal) :=
  (style.find? (fun p => p.1 == key)).map (·.2)

/-- A small schema-shaped theme used to instantiate universally quantified
statements at a concrete input. -/
def sampleTheme : ThemeDefinition :=
  { id := "sample"
    version := "0.1.0"
    metadata := { name := "Sample", author := none, description := none, tags := none }
    tokens :=
      { color := [("primary", "#1A73E8"), ("text", "#2B2B2B"), ("background", "#FFFFFF")]
        typography :=
          { fontFamily := "sans-serif"
            heading := { lineHeight := 2, weight := 600, fontFamily := none }
            body := { lineHeight := 2, weight := 400, fontFamily := none } }
        spacing := [("paragraph", 16), ("section", 32)]
        border := none }
    components := { heading := none, paragraph := none, blockquote := none } }


/-- getParagraphStyle with the theme threaded as state. -/
def getParagraphStyleSt : ThemeSt InlineStyle := readThemeWith getParagraphStyle

/-- getHeadingStyle with the theme threaded as state. -/
def getHeadingStyleSt (level : Nat) : ThemeSt InlineStyle :=
  readThemeWith (fun theme => getHeadingStyle theme level)

/-- getBlockquoteStyle with the theme threaded as state. -/
def getBlockquoteStyleSt : ThemeSt InlineStyle := readThemeWith getBlockquoteStyle

/-- getListStyle with the theme threaded as state. -/
def getListStyleSt : ThemeSt InlineStyle := readThemeWith getListStyle

/-- getListItemStyle with the theme threaded as state. -/
def getListItemStyleSt : ThemeSt InlineStyle := readThemeWith getListItemStyle

/-- getLinkStyle with the theme threaded as state. -/
def getLinkStyleSt : ThemeSt InlineStyle := readThemeWith getLinkStyle

/-- getTableStyle with the theme threaded as state. -/
def getTableStyleSt : ThemeSt InlineStyle := readThemeWith getTableStyle

/-- getTableHeaderStyle with the theme threaded as state. -/
def getTableHeaderStyleSt : ThemeSt InlineStyle := readThemeWith getTableHeaderStyle

/-- getTableCellStyle with the theme threaded as state. -/
def getTableCellStyleSt : ThemeSt InlineStyle := readThemeWith getTableCellStyle

/-- getCodeBlockStyle with the theme threaded as state. -/
def getCodeBlockStyleSt : ThemeSt InlineStyle := readThemeWith getCodeBlockStyle

/-- getInlineCodeStyle with the theme threaded as state. -/
def getInlineCodeStyleSt : ThemeSt InlineStyle := readThemeWith getInlineCodeStyle


/-- A two-heading document: a depth-1 heading directly followed by a
depth-4 heading. -/
def docHeadingJump : MdNode :=
  MdNode.mk "root" none none 0 "" none none []
    [MdNode.mk "heading" none none 1 "" none none [] [],
     MdNode.mk "heading" none none 4 "" none none [] []]


/-- Reinsert the delimiter pair around a marked segment; plain segments are
kept as they are.  Concatenating the restored segments rebuilds the
original text, which is exactly the statement that the concatenated segment
values equal the original value with each matched delimiter pair removed. -/
def segmentRestore (seg : HighlightSegment) : List Char :=
  if seg.marked then '=' :: '=' :: (seg.value ++ ['=', '=']) else seg.value


theorem getProp_setProp_self (ps : Props) (key : String) (v : PropVal) :
    getProp (setProp ps key v) key = some v := by
  induction ps with
  | nil => simp [setProp, getProp]
  | cons hd tl ih =>
    obtain ⟨k', v'⟩ := hd
    by_cases h : k' = key
    · simp [setProp, getProp, h]
    · simp only [setProp, beq_iff_eq, h, if_false]
      simpa [getProp, h] using ih

theorem getProp_setProp_other (ps : Props) (key key' : String) (v : PropVal)
    (h : key' ≠ key) : getProp (setProp ps key v) key' = getProp ps key' := by
  induction ps with
  | nil => simp [setProp, getProp, Ne.symm h]
  | cons hd tl ih =>
    obtain ⟨k', v'⟩ := hd
    by_cases hk : k' = key
    · subst hk
      simp [setProp, getProp, Ne.symm h]
    · simp only [setProp, beq_iff_eq, hk, if_false]
      by_cases hk2 : k' = key'
      · simp [getProp, hk2]
      · simpa [getProp, hk2] using ih

theorem length_takeWhile_le' {α : Type} (p : α → Bool) (l : List α) :
    (l.takeWhile p).length ≤ l.length := by
  induction l with
  | nil => simp
  | cons a l ih =>
    by_cases h : p a
    · simpa [List.takeWhile_cons, h] using Nat.succ_le_succ ih
    · simp [List.takeWhile_cons, h]

theorem drop_length_takeWhile {α : Type} (p : α → Bool) (l : List α) :
    l.drop (l.takeWhile p).length = l.dropWhile p := by
  induction l with
  | nil => simp
  | cons a l ih =>
    by_cases h : p a
    · simpa [List.takeWhile_cons, List.dropWhile_cons, h] using ih
    · simp [List.takeWhile_cons, List.dropWhile_cons, h]

/-- C10: every iteration of the grouping pass's outer loop resumes at the
position right after the iteration's start (index + 1), and — whether it
splices a qualifying run of length at least one down to a single container
or leaves the siblings untouched — it strictly shrinks the number of
remaining unscanned siblings, children.length - index; hence the loop
terminates on every finite top-level child list. -/
theorem groupStep_measure_decreases (children : List HNode) (index : Nat)
    (h : index < children.length) :
    (groupStep children index).2 = index + 1 ∧
    (groupStep children index).1.length - (groupStep children index).2
      < children.length - index := by
  have hseqle : ((children.drop index).takeWhile isRunNode).length ≤ children.length - index := by
    have h1 := length_takeWhile_le' isRunNode (children.drop index)
    simpa using h1
  have hsnd : (groupStep children index).2 = index + 1 := by
    simp only [groupStep]
    split <;> rfl
  refine ⟨hsnd, ?_⟩
  by_cases hq : 2 ≤ (((children.drop index).takeWhile isRunNode).flatMap extractImagesFromNode).length
  · have hne : ((children.drop index).takeWhile isRunNode) ≠ [] := by
      intro hnil
      rw [hnil] at hq
      simp at hq
    have hpos : 1 ≤ ((children.drop index).takeWhile isRunNode).length :=
      List.length_pos.mpr hne
    simp only [groupStep]
    rw [if_pos hq]
    simp only [List.length_append, List.length_take, List.length_cons, List.length_drop]
    omega
  · simp only [groupStep]
    rw [if_neg hq]
    show children.length - (index + 1) < children.length - index
    omega

/-- Witness for the termination claim at a concrete input. -/
theorem groupStep_measure_decreases_witness :
    (0 < [HNode.text "x"].length) ∧
    ((groupStep [HNode.text "x"] 0).2 = 0 + 1 ∧
     (groupStep [HNode.text "x"] 0).1.length - (groupStep [HNode.text "x"] 0).2
       < [HNode.text "x"].length - 0) :=
  ⟨by decide, groupStep_measure_decreases [HNode.text "x"] 0 (by decide)⟩

/-- C7: for every theme and heading level 1..6, the fontSize entry of
getHeadingStyle is the components.heading.h-level fontSize override when
one is present, and max(16, 36 - (level - 1) * 4) pixels when it is
absent. -/
theorem getHeadingStyle_fontSize (theme : ThemeDefinition) (level : Nat)
    (h1 : 1 ≤ level) (h2 : level ≤ 6) :
    styleLookup (getHeadingStyle theme level) "fontSize" =
      some (some (.s (toString (((headingOverrideFor theme level).bind (·.fontSize)).getD
        (max 16 (36 - ((level : Int) - 1) * 4))) ++ "px"))) ∧
    ((headingOverrideFor theme level).bind (·.fontSize) = none →
      styleLookup (getHeadingStyle theme level) "fontSize" =
        some (some (.s (toString (max 16 (36 - ((level : Int) - 1) * 4)) ++ "px")))) ∧
    (∀ v : Int, (headingOverrideFor theme level).bind (·.fontSize) = some v →
      styleLookup (getHeadingStyle theme level) "fontSize" =
        some (some (.s (toString v ++ "px")))) := by
  have hmain : styleLookup (getHeadingStyle theme level) "fontSize" =
      some (some (.s (toString (((headingOverrideFor theme level).bind (·.fontSize)).getD
        (max 16 (36 - ((level : Int) - 1) * 4))) ++ "px"))) := by
    simp [getHeadingStyle, styleLookup, List.find?]
  refine ⟨hmain, ?_, ?_⟩
  · intro hnone
    rw [hmain, hnone]
    rfl
  · intro v hsome
    rw [hmain, hsome]
    rfl

/-- Witness: the heading font-size fallback at a concrete theme without
overrides, level 3: 36 - 2 * 4 = 28 pixels. -/
theorem getHeadingStyle_fontSize_witness :
    (1 ≤ 3 ∧ 3 ≤ 6) ∧
    (styleLookup (getHeadingStyle sampleTheme 3) "fontSize" =
      some (some (.s (toString (((headingOverrideFor sampleTheme 3).bind (·.fontSize)).getD
        (max 16 (36 - ((3 : Int) - 1) * 4))) ++ "px"))) ∧
    ((headingOverrideFor sampleTheme 3).bind (·.fontSize) = none →
      styleLookup (getHeadingStyle sampleTheme 3) "fontSize" =
        some (some (.s (toString (max 16 (36 - ((3 : Int) - 1) * 4)) ++ "px")))) ∧
    (∀ v : Int, (headingOverrideFor sampleTheme 3).bind (·.fontSize) = some v →
      styleLookup (getHeadingStyle sampleTheme 3) "fontSize" =
        some (some (.s (toString v ++ "px"))))) :=
  ⟨by decide, getHeadingStyle_fontSize sampleTheme 3 (by decide) (by decide)⟩

mutual

theorem applyThemeNodeSt_preserves :
    ∀ (parentTag : Option String) (node : HNode) (theme : ThemeDefinition),
      (applyThemeNodeSt parentTag node theme).2 = theme ∧
      (applyThemeNodeSt parentTag node theme).1 = applyThemeNode theme parentTag node
  | _, .text _, _ => by simp [applyThemeNodeSt, applyThemeNode]
  | pt, .element t p cs, theme => by
    have h := applyThemeListSt_preserves (some t) cs theme
    simp only [applyThemeNodeSt, applyThemeNode, styleElementPropsSt, readThemeWith]
    exact ⟨h.1, by rw [h.2]⟩

theorem applyThemeListSt_preserves :
    ∀ (parentTag : Option String) (nodes : List HNode) (theme : ThemeDefinition),
      (applyThemeListSt parentTag nodes theme).2 = theme ∧
      (applyThemeListSt parentTag nodes theme).1 = applyThemeList theme parentTag nodes
  | _, [], _ => by simp [applyThemeListSt, applyThemeList]
  | pt, c :: cs, theme => by
    have h1 := applyThemeNodeSt_preserves pt c theme
    have h2 := applyThemeListSt_preserves pt cs (applyThemeNodeSt pt c theme).2
    simp only [applyThemeListSt, applyThemeList]
    refine ⟨by rw [h2.1, h1.1], ?_⟩
    rw [h2.2, h1.1, h1.2]

end

/-- C9: no styling operation mutates its theme argument.  Threading the
theme as explicit state through the whole theme plugin — every getter call
and every node visit — hands back the identical theme while producing the
same styled tree as the pure plugin, and each style getter likewise returns
the theme unchanged together with its freshly built style object; this
holds for every theme value, in particular every schema-valid one. -/
theorem theme_never_mutated :
    (∀ (theme : ThemeDefinition) (rootChildren : List HNode),
       (createThemePluginSt rootChildren theme).2 = theme ∧
       (createThemePluginSt rootChildren theme).1 = createThemePlugin theme rootChildren) ∧
    (∀ theme : ThemeDefinition,
       (getParagraphStyleSt theme).2 = theme ∧
       (getParagraphStyleSt theme).1 = getParagraphStyle theme ∧
       (∀ level : Nat, (getHeadingStyleSt level theme).2 = theme ∧
         (getHeadingStyleSt level theme).1 = getHeadingStyle theme level) ∧
       (getBlockquoteStyleSt theme).2 = theme ∧
       (getBlockquoteStyleSt theme).1 = getBlockquoteStyle theme ∧
       (getListStyleSt theme).2 = theme ∧
       (getListStyleSt theme).1 = getListStyle theme ∧
       (getListItemStyleSt theme).2 = theme ∧
       (getListItemStyleSt theme).1 = getListItemStyle theme ∧
       (getLinkStyleSt theme).2 = theme ∧
       (getLinkStyleSt theme).1 = getLinkStyle theme ∧
       (getTableStyleSt theme).2 = theme ∧
       (getTableStyleSt theme).1 = getTableStyle theme ∧
       (getTableHeaderStyleSt theme).2 = theme ∧
       (getTableHeaderStyleSt theme).1 = getTableHeaderStyle theme ∧
       (getTableCellStyleSt theme).2 = theme ∧
       (getTableCellStyleSt theme).1 = getTableCellStyle theme ∧
       (getCodeBlockStyleSt theme).2 = theme ∧
       (getCodeBlockStyleSt theme).1 = getCodeBlockStyle theme ∧
       (getInlineCodeStyleSt theme).2 = theme ∧
       (getInlineCodeStyleSt theme).1 = getInlineCodeStyle theme) := by
  constructor
  · intro theme rootChildren
    have h := applyThemeListSt_preserves none rootChildren theme
    exact ⟨h.1, by rw [createThemePluginSt, createThemePlugin, h.2]⟩
  · intro theme
    exact ⟨rfl, rfl, fun _ => ⟨rfl, rfl⟩, rfl, rfl, rfl, rfl, rfl, rfl, rfl, rfl,
      rfl, rfl, rfl, rfl, rfl, rfl, rfl, rfl, rfl, rfl⟩

mutual

theorem convertNode_id_of_noGrid :
    ∀ n : HNode, containsGridNode n = false → convertNode n = n
  | .text _, _ => by simp [convertNode]
  | .element t p cs, h => by
    simp only [containsGridNode, Bool.or_eq_false_iff] at h
    simp only [convertNode, h.1, Bool.false_eq_true, if_false]
    rw [convertList_id_of_noGrid cs h.2]

theorem convertList_id_of_noGrid :
    ∀ l : List HNode, containsGridList l = false → convertList l = l
  | [], _ => by simp [convertList]
  | c :: cs, h => by
    simp only [containsGridList, Bool.or_eq_false_iff] at h
    simp only [convertList]
    rw [convertNode_id_of_noGrid c h.1, convertList_id_of_noGrid cs h.2]

end

/-- C5: the export normalizer is the identity away from grids and on
failure.  When the parse of the input markup fails (or any transform step
throws), the original string comes back unchanged; and when the input
parses to a document containing no grid-container element and serializes
back to the input (the round-trip fidelity of the external DOM parse),
normalization returns the input string unchanged. -/
theorem prepareWechatExportHtml_identity :
    (∀ (html : String) (serialize : List HNode → String),
       prepareWechatExportHtml html none serialize = html) ∧
    (∀ (html : String) (doc : List HNode) (serialize : List HNode → String),
       containsGridList doc = false → serialize doc = html →
       prepareWechatExportHtml html (some doc) serialize = html) := by
  constructor
  · intro html serialize
    by_cases h : jsTrim html = "" <;> simp [prepareWechatExportHtml, h]
  · intro html doc serialize hng hser
    by_cases h : jsTrim html = ""
    · simp [prepareWechatExportHtml, h]
    · simp [prepareWechatExportHtml, h, convertList_id_of_noGrid doc hng, hser]

/-- Witness: a concrete grid-free document round-trips unchanged. -/
theorem prepareWechatExportHtml_identity_witness :
    (containsGridList [HNode.text "x"] = false ∧
     (fun _ : List HNode => "x") [HNode.text "x"] = "x") ∧
    prepareWechatExportHtml "x" (some [HNode.text "x"]) (fun _ => "x") = "x" :=
  ⟨⟨by decide, rfl⟩,
   prepareWechatExportHtml_identity.2 "x" [HNode.text "x"] (fun _ => "x") (by decide) rfl⟩

theorem highlightChildren_append (tag : String) (a b : List HNode) :
    highlightChildren tag (a ++ b) =
      highlightChildren tag a ++ highlightChildren tag b := by
  induction a with
  | nil => simp [highlightChildren]
  | cons c cs ih => simp [highlightChildren, ih]

/-- Counterexample to C4: the skip test looks only at the text node's
immediate parent, so a delimiter inside a pre subtree at depth two (parent
is a span inside the pre) is rewritten into a mark element, not left
unchanged. -/
theorem highlight_pre_subtree_not_skipped_cex :
    rehypeHighlightMark
        [HNode.element "pre" [] [HNode.element "span" [] [HNode.text "==x=="]]] =
      [HNode.element "pre" [] [HNode.element "span" []
        [HNode.element "mark" [] [HNode.text "x"]]]] ∧
    rehypeHighlightMark
        [HNode.element "pre" [] [HNode.element "span" [] [HNode.text "==x=="]]] ≠
      [HNode.element "pre" [] [HNode.element "span" [] [HNode.text "==x=="]]] := by
  constructor
  · decide
  · decide

/-- C4 (amended): a text node whose immediate parent element is code, pre,
script or style is left unchanged by the segmenter, in place among its
siblings — the guard inspects only the direct parent, not whole ancestor
chains. -/
theorem highlight_skip_direct_parent (tag : String)
    (h : shouldSkipHighlight tag = true) (l1 l2 : List HNode) (v : String) :
    highlightChildren tag (l1 ++ HNode.text v :: l2) =
      highlightChildren tag l1 ++ HNode.text v :: highlightChildren tag l2 := by
  rw [highlightChildren_append]
  simp [highlightChildren, highlightNode, h]

/-- Witness: a text node directly under a pre element passes through
unchanged. -/
theorem highlight_skip_direct_parent_witness :
    (shouldSkipHighlight "pre" = true) ∧
    highlightChildren "pre" ([] ++ HNode.text "==x==" :: []) =
      highlightChildren "pre" [] ++ HNode.text "==x==" :: highlightChildren "pre" [] :=
  ⟨by decide, highlight_skip_direct_parent "pre" (by decide) [] [] "==x=="⟩

theorem attachSourceLineProps_idem (type : String) (line : Option Nat) (props : Props) :
    attachSourceLineProps type line (attachSourceLineProps type line props) =
      attachSourceLineProps type line props := by
  by_cases ht : type ∈ highlightableTypes
  case neg => simp [attachSourceLineProps, ht]
  cases line with
  | none => simp [attachSourceLineProps, ht]
  | some l =>
    by_cases hl : l = 0
    · simp [attachSourceLineProps, ht, hl]
    · by_cases he : truthyProp (getProp props "data-source-line") = true
      · simp [attachSourceLineProps, ht, hl, he]
      · have hset : truthyProp
            (getProp (setProp props "data-source-line" (.num (l : Int))) "data-source-line") = true := by
          rw [getProp_setProp_self]
          simp only [truthyProp, ne_eq, decide_eq_true_eq]
          exact_mod_cast hl
        simp [attachSourceLineProps, ht, hl, he, hset]

mutual

theorem remarkAttachSourceLine_idem :
    ∀ n : MdNode, remarkAttachSourceLine (remarkAttachSourceLine n) = remarkAttachSourceLine n
  | .mk t l c d u a v p ch => by
    simp only [remarkAttachSourceLine]
    rw [attachSourceLineProps_idem, remarkAttachSourceLineList_idem ch]

theorem remarkAttachSourceLineList_idem :
    ∀ ns : List MdNode,
      remarkAttachSourceLineList (remarkAttachSourceLineList ns) = remarkAttachSourceLineList ns
  | [] => by simp [remarkAttachSourceLineList]
  | n :: ns => by
    simp only [remarkAttachSourceLineList]
    rw [remarkAttachSourceLine_idem n, remarkAttachSourceLineList_idem ns]

end

/-- Counterexample to C6: the annotator's guard is a JS truthiness test, so
a node that already carries a (falsy) source-line attribute value 0 is
overwritten with the recorded line — the pass attaches to a node that does
have an existing source-line attribute, and changes an already-set value. -/
theorem remarkAttachSourceLine_overwrites_falsy_cex :
    (getProp (MdNode.mk "paragraph" (some 5) none 0 "" none none
        [("data-source-line", PropVal.num 0)] []).hProps "data-source-line").isSome = true ∧
    getProp (remarkAttachSourceLine (MdNode.mk "paragraph" (some 5) none 0 "" none none
        [("data-source-line", PropVal.num 0)] [])).hProps "data-source-line" =
      some (PropVal.num 5) ∧
    getProp (remarkAttachSourceLine (MdNode.mk "paragraph" (some 5) none 0 "" none none
        [("data-source-line", PropVal.num 0)] [])).hProps "data-source-line" ≠
      getProp (MdNode.mk "paragraph" (some 5) none 0 "" none none
        [("data-source-line", PropVal.num 0)] []).hProps "data-source-line" := by
  refine ⟨by decide, by decide, by decide⟩

/-- C6 (amended): the annotator attaches the recorded line exactly to
allow-listed kinds with a truthy recorded starting line and no truthy
existing source-line attribute — a present but falsy value (0 or the empty
string) counts as unset and is overwritten, everything else is never
touched; it changes no other attribute key; each visited node's attribute
bag is exactly the per-node update; and it is idempotent: a second run
reproduces the first run's tree, so values the first run wrote are never
changed again. -/
theorem remarkAttachSourceLine_spec :
    (∀ (type : String) (l : Nat) (props : Props),
       type ∈ highlightableTypes → l ≠ 0 →
       truthyProp (getProp props "data-source-line") = false →
       getProp (attachSourceLineProps type (some l) props) "data-source-line" =
         some (.num (l : Int))) ∧
    (∀ (type : String) (line : Option Nat) (props : Props),
       type ∉ highlightableTypes → attachSourceLineProps type line props = props) ∧
    (∀ (type : String) (props : Props),
       attachSourceLineProps type none props = props ∧
       attachSourceLineProps type (some 0) props = props) ∧
    (∀ (type : String) (line : Option Nat) (props : Props),
       truthyProp (getProp props "data-source-line") = true →
       attachSourceLineProps type line props = props) ∧
    (∀ (type : String) (line : Option Nat) (props : Props) (k : String),
       k ≠ "data-source-line" →
       getProp (attachSourceLineProps type line props) k = getProp props k) ∧
    (∀ n : MdNode,
       (remarkAttachSourceLine n).hProps =
         attachSourceLineProps n.type n.startLine n.hProps) ∧
    (∀ t : MdNode,
       remarkAttachSourceLine (remarkAttachSourceLine t) = remarkAttachSourceLine t) := by
  refine ⟨?_, ?_, ?_, ?_, ?_, ?_, remarkAttachSourceLine_idem⟩
  · intro type l props ht hl he
    simp [attachSourceLineProps, ht, hl, he, getProp_setProp_self]
  · intro type line props ht
    simp [attachSourceLineProps, ht]
  · intro type props
    constructor
    · by_cases ht : type ∈ highlightableTypes <;> simp [attachSourceLineProps, ht]
    · by_cases ht : type ∈ highlightableTypes <;> simp [attachSourceLineProps, ht]
  · intro type line props he
    by_cases ht : type ∈ highlightableTypes
    · cases line with
      | none => simp [attachSourceLineProps, ht]
      | some l =>
        by_cases hl : l = 0 <;> simp [attachSourceLineProps, ht, hl, he]
    · simp [attachSourceLineProps, ht]
  · intro type line props k hk
    by_cases ht : type ∈ highlightableTypes
    · cases line with
      | none => simp [attachSourceLineProps, ht]
      | some l =>
        by_cases hl : l = 0
        · simp [attachSourceLineProps, ht, hl]
        · by_cases he : truthyProp (getProp props "data-source-line") = true
          · simp [attachSourceLineProps, ht, hl, he]
          · simp [attachSourceLineProps, ht, hl, he,
              getProp_setProp_other props "data-source-line" k (.num (l : Int)) hk]
    · simp [attachSourceLineProps, ht]
  · intro n
    cases n
    rfl

/-- Witness: the annotator writes line 5 onto a bare paragraph node. -/
theorem remarkAttachSourceLine_spec_witness :
    ("paragraph" ∈ highlightableTypes ∧ (5 : Nat) ≠ 0 ∧
     truthyProp (getProp ([] : Props) "data-source-line") = false) ∧
    getProp (attachSourceLineProps "paragraph" (some 5) ([] : Props)) "data-source-line" =
      some (.num ((5 : Nat) : Int)) :=
  ⟨⟨by decide, by decide, by decide⟩,
   remarkAttachSourceLine_spec.1 "paragraph" 5 [] (by decide) (by decide) (by decide)⟩

theorem headingIssuesGo_zip (hs : List MdNode) :
    ∀ prev : Option Nat,
      headingIssuesGo prev hs =
        (hs.zip (prev :: hs.map (fun h => some h.depth))).flatMap
          (fun p =>
            (match p.2 with
             | some d =>
               if d + 1 < p.1.depth then
                 [⟨"structure", jumpMessage d p.1.depth, toLocation p.1⟩]
               else []
             | none => []) ++
            (if 48 < (headingText p.1).length then
              [⟨"structure", longTitleMessage (headingText p.1), toLocation p.1⟩]
             else [])) := by
  induction hs with
  | nil => intro prev; simp [headingIssuesGo]
  | cons h rest ih =>
    intro prev
    simp only [headingIssuesGo, List.map_cons, List.zip_cons_cons, List.flatMap_cons, ih (some h.depth)]

/-- C8: the heading visit of the quality checker emits its depth-jump
structure issue at a heading exactly when some heading was seen earlier in
document order and this heading's depth exceeds the immediately previously
seen heading's depth by more than one — the previous depth is one running
value across the whole flattened document, the first heading (paired with
no previous value) never triggers it — and a document jumping from depth 1
straight to depth 4 yields exactly one structure issue. -/
theorem runQualityChecks_heading_jump :
    (∀ hs : List MdNode,
       headingIssuesGo none hs =
         (hs.zip (none :: hs.map (fun h => some h.depth))).flatMap
           (fun p =>
             (match p.2 with
              | some d =>
                if d + 1 < p.1.depth then
                  [⟨"structure", jumpMessage d p.1.depth, toLocation p.1⟩]
                else []
              | none => []) ++
             (if 48 < (headingText p.1).length then
               [⟨"structure", longTitleMessage (headingText p.1), toLocation p.1⟩]
              else []))) ∧
    runQualityChecks docHeadingJump = [⟨"structure", jumpMessage 1 4, none⟩] :=
  ⟨fun hs => headingIssuesGo_zip hs none, by decide⟩

theorem splitAtEqEq_eq (cs : List Char) :
    ∀ a b, splitAtEqEq cs = some (a, b) → cs = a ++ '=' :: '=' :: b := by
  induction cs using splitAtEqEq.induct with
  | case1 => intro a b h; simp [splitAtEqEq] at h
  | case2 c => intro a b h; simp [splitAtEqEq] at h
  | case3 c1 c2 rest heq =>
    intro a b h
    obtain ⟨rfl, rfl⟩ := heq
    simp only [splitAtEqEq, and_self, if_true, Option.some.injEq, Prod.mk.injEq] at h
    rw [← h.1, ← h.2]
    rfl
  | case4 c1 c2 rest heq ih =>
    intro a b h
    simp only [splitAtEqEq, heq, if_false, Option.map_eq_some'] at h
    obtain ⟨p, hp, hab⟩ := h
    cases hab
    have hr := ih p.1 p.2 (by rw [hp])
    simp [hr]

theorem findHighlightMatch_eq (cs : List Char) :
    ∀ pre cap after, findHighlightMatch cs = some (pre, cap, after) →
      cs = pre ++ '=' :: '=' :: (cap ++ '=' :: '=' :: after) ∧ cap ≠ [] := by
  induction cs using findHighlightMatch.induct with
  | case1 => intro pre cap after h; simp [findHighlightMatch] at h
  | case2 c => intro pre cap after h; simp [findHighlightMatch] at h
  | case3 c1 c2 => intro pre cap after h; simp [findHighlightMatch] at h
  | case4 c1 c2 c3 rest heq cap' after' hsplit =>
    intro pre cap after h
    obtain ⟨rfl, rfl⟩ := heq
    simp only [findHighlightMatch, and_self, if_true, hsplit, Option.some.injEq,
      Prod.mk.injEq] at h
    obtain ⟨h1, h2, h3⟩ := h
    rw [← h1, ← h2, ← h3]
    have hr := splitAtEqEq_eq rest cap' after' hsplit
    subst hr
    exact ⟨rfl, by simp⟩
  | case5 c1 c2 c3 rest heq hsplitn ih =>
    intro pre cap after h
    obtain ⟨rfl, rfl⟩ := heq
    simp only [findHighlightMatch, and_self, if_true, hsplitn, Option.map_eq_some'] at h
    obtain ⟨r, hrec, hr⟩ := h
    obtain ⟨rpre, rcap, rafter⟩ := r
    cases hr
    have hx := ih _ _ _ hrec
    refine ⟨?_, hx.2⟩
    simpa using congrArg (fun l => '=' :: l) hx.1
  | case6 c1 c2 c3 rest heq ih =>
    intro pre cap after h
    simp only [findHighlightMatch, heq, if_false, Option.map_eq_some'] at h
    obtain ⟨r, hrec, hr⟩ := h
    obtain ⟨rpre, rcap, rafter⟩ := r
    cases hr
    have hx := ih _ _ _ hrec
    refine ⟨?_, hx.2⟩
    simpa using congrArg (fun l => c1 :: l) hx.1

theorem scanHighlightFuel_restore (fuel : Nat) :
    ∀ cs : List Char, cs.length ≤ fuel →
      (scanHighlightFuel fuel cs).flatMap segmentRestore = cs := by
  induction fuel with
  | zero =>
    intro cs h
    have h0 : cs = [] := List.length_eq_zero.mp (Nat.le_zero.mp h)
    subst h0
    simp [scanHighlightFuel]
  | succ fuel ih =>
    intro cs h
    cases hm : findHighlightMatch cs with
    | none =>
      by_cases hcs : cs.isEmpty
      · have h0 : cs = [] := by simpa [List.isEmpty_iff] using hcs
        subst h0
        simp [scanHighlightFuel, hm]
      · simp [scanHighlightFuel, hm, hcs, segmentRestore]
    | some r =>
      obtain ⟨pre, cap, after⟩ := r
      have hstr := findHighlightMatch_eq cs pre cap after hm
      have hlen : after.length ≤ fuel := by
        have hl := congrArg List.length hstr.1
        simp [List.length_append] at hl
        omega
      have hcapne : cap.isEmpty = false := by
        cases cap with
        | nil => exact absurd rfl hstr.2
        | cons a b => rfl
      simp only [scanHighlightFuel, hm]
      rw [List.flatMap_append, List.flatMap_append, ih after hlen]
      by_cases hpre : pre.isEmpty
      · have hp0 : pre = [] := by simpa [List.isEmpty_iff] using hpre
        subst hp0
        rw [hstr.1]
        simp [hpre, hcapne, segmentRestore]
      · rw [hstr.1]
        simp only [hpre, hcapne, Bool.false_eq_true, if_false]
        simp [segmentRestore]

theorem scanHighlightFuel_marked_ne (fuel : Nat) :
    ∀ (cs : List Char) (s : HighlightSegment),
      s ∈ scanHighlightFuel fuel cs → s.marked = true → s.value ≠ [] := by
  induction fuel with
  | zero =>
    intro cs s hs hm
    by_cases hcs : cs.isEmpty
    · simp [scanHighlightFuel, hcs] at hs
    · simp [scanHighlightFuel, hcs] at hs
      rw [hs] at hm
      simp at hm
  | succ fuel ih =>
    intro cs s hs hm
    cases hfm : findHighlightMatch cs with
    | none =>
      by_cases hcs : cs.isEmpty
      · simp [scanHighlightFuel, hfm, hcs] at hs
      · simp [scanHighlightFuel, hfm, hcs] at hs
        rw [hs] at hm
        simp at hm
    | some r =>
      obtain ⟨pre, cap, after⟩ := r
      have hstr := findHighlightMatch_eq cs pre cap after hfm
      simp only [scanHighlightFuel, hfm, List.mem_append] at hs
      rcases hs with (hs | hs) | hs
      · by_cases hpre : pre.isEmpty
        · simp [hpre] at hs
        · simp [hpre] at hs
          rw [hs] at hm
          simp at hm
      · have hcapne : cap.isEmpty = false := by
          cases cap with
          | nil => exact absurd rfl hstr.2
          | cons a b => rfl
        simp [hcapne] at hs
        rw [hs]
        exact hstr.2
      · exact ih after s hs hm

theorem containsEqEq_append (a b : List Char) :
    containsEqEq (a ++ '=' :: '=' :: b) = true := by
  induction a with
  | nil => simp [containsEqEq]
  | cons c a ih =>
    cases a with
    | nil =>
      simp only [containsEqEq, List.nil_append] at ih ⊢
      simp [ih]
    | cons c2 a' =>
      simp only [containsEqEq, List.cons_append] at ih ⊢
      simp [ih]

theorem findHighlightMatch_toList_ne_empty (v : String) (r : List Char × List Char × List Char)
    (h : findHighlightMatch v.toList = some r) : v ≠ "" := by
  intro hv
  subst hv
  simp [findHighlightMatch] at h

theorem highlightTransformText_of_split (v : String) (segs : List HighlightSegment)
    (h : splitHighlightSegments v = some segs) :
    highlightTransformText v = some (segs.map segmentToNode) := by
  rcases hfm : findHighlightMatch v.toList with _ | r
  · rw [splitHighlightSegments, hfm] at h
    exact absurd h (by simp)
  · have hv : v ≠ "" := findHighlightMatch_toList_ne_empty v r hfm
    obtain ⟨pre, cap, after⟩ := r
    have hstr := findHighlightMatch_eq v.toList pre cap after hfm
    have hcontains : containsEqEq v.toList = true := by
      rw [hstr.1]
      have : pre ++ '=' :: '=' :: (cap ++ '=' :: '=' :: after) =
          pre ++ '=' :: '=' :: (cap ++ '=' :: '=' :: after) := rfl
      exact containsEqEq_append pre (cap ++ '=' :: '=' :: after)
    rw [splitHighlightSegments, hfm] at h
    simp only [Option.some.injEq] at h
    rw [highlightTransformText, if_neg hv]
    simp only [hcontains, Bool.not_true, Bool.false_eq_true, if_false]
    rw [splitHighlightSegments, hfm, h]

/-- C3: whenever the segmenter fires on a text value (at least one complete
non-empty delimited span), the emitted ordered segment sequence restores
the original value exactly — the concatenated segment values equal the
original with each matched delimiter pair removed, in order — no marked
segment is ever empty, the firing text node is replaced in its parent's
child list by exactly the segment nodes with all siblings preserved, and
the concrete input from the spec produces a single marked span 重点 between
the verbatim plain texts. -/
theorem rehypeHighlightMark_segments_spec :
    (∀ (v : String) (segs : List HighlightSegment),
       splitHighlightSegments v = some segs →
       segs.flatMap segmentRestore = v.toList ∧
       (∀ s ∈ segs, s.marked = true → s.value ≠ [])) ∧
    (∀ (tag : String) (v : String) (segs : List HighlightSegment) (l1 l2 : List HNode),
       shouldSkipHighlight tag = false →
       splitHighlightSegments v = some segs →
       highlightChildren tag (l1 ++ HNode.text v :: l2) =
         highlightChildren tag l1 ++ segs.map segmentToNode ++ highlightChildren tag l2) ∧
    splitHighlightSegments "这是 ==重点== 提醒" =
      some [⟨"这是 ".toList, false⟩, ⟨"重点".toList, true⟩, ⟨" 提醒".toList, false⟩] := by
  refine ⟨?_, ?_, ?_⟩
  · intro v segs h
    have hsegs : segs = scanHighlightFuel v.toList.length v.toList := by
      rcases hfm : findHighlightMatch v.toList with _ | r
      · rw [splitHighlightSegments, hfm] at h
        exact absurd h (by simp)
      · rw [splitHighlightSegments, hfm] at h
        simpa using h.symm
    subst hsegs
    exact ⟨scanHighlightFuel_restore _ _ le_rfl,
      fun s hs => scanHighlightFuel_marked_ne _ _ s hs⟩
  · intro tag v segs l1 l2 hskip hsplit
    rw [highlightChildren_append]
    have ht := highlightTransformText_of_split v segs hsplit
    simp [highlightChildren, highlightNode, hskip, ht]
  · decide

/-- Witness: the segmenter on a minimal delimited value, with the
reconstruction and the non-empty-marked guarantees instantiated. -/
theorem rehypeHighlightMark_segments_spec_witness :
    (splitHighlightSegments "==a==" = some [⟨['a'], true⟩]) ∧
    (([⟨['a'], true⟩] : List HighlightSegment).flatMap segmentRestore = "==a==".toList ∧
     (∀ s ∈ ([⟨['a'], true⟩] : List HighlightSegment), s.marked = true → s.value ≠ [])) :=
  ⟨by decide, rehypeHighlightMark_segments_spec.1 "==a==" [⟨['a'], true⟩] (by decide)⟩

theorem length_dropWhile_le' {α : Type} (p : α → Bool) (l : List α) :
    (l.dropWhile p).length ≤ l.length := by
  induction l with
  | nil => simp
  | cons a l ih =>
    by_cases h : p a
    · simp only [List.dropWhile_cons, h, if_true]
      exact Nat.le_succ_of_le ih
    · simp [List.dropWhile_cons, h]

theorem groupRunsSpecFuel_congr :
    ∀ (fuel fuel' : Nat) (l : List HNode), l.length ≤ fuel → l.length ≤ fuel' →
      groupRunsSpecFuel fuel l = groupRunsSpecFuel fuel' l := by
  intro fuel
  induction fuel with
  | zero =>
    intro fuel' l h h'
    have h0 : l = [] := List.length_eq_zero.mp (Nat.le_zero.mp h)
    subst h0
    cases fuel' <;> rfl
  | succ fuel ih =>
    intro fuel' l h h'
    cases l with
    | nil => cases fuel' <;> rfl
    | cons x xs =>
      cases fuel' with
      | zero => simp at h'
      | succ fuel'' =>
        simp only [groupRunsSpecFuel]
        by_cases hrun : isRunNode x
        · simp only [hrun, if_true]
          by_cases hq : 2 ≤ (((x :: xs).takeWhile isRunNode).flatMap extractImagesFromNode).length
          · rw [if_pos hq, if_pos hq]
            have hlen : ((x :: xs).dropWhile isRunNode).length ≤ fuel := by
              have h1 : (x :: xs).dropWhile isRunNode = xs.dropWhile isRunNode := by
                simp [List.dropWhile_cons, hrun]
              rw [h1]
              have := length_dropWhile_le' isRunNode xs
              simp only [List.length_cons] at h
              omega
            have hlen' : ((x :: xs).dropWhile isRunNode).length ≤ fuel'' := by
              have h1 : (x :: xs).dropWhile isRunNode = xs.dropWhile isRunNode := by
                simp [List.dropWhile_cons, hrun]
              rw [h1]
              have := length_dropWhile_le' isRunNode xs
              simp only [List.length_cons] at h'
              omega
            rw [ih fuel'' _ hlen hlen']
          · rw [if_neg hq, if_neg hq]
            have hlen : ((x :: xs).dropWhile isRunNode).length ≤ fuel := by
              have h1 : (x :: xs).dropWhile isRunNode = xs.dropWhile isRunNode := by
                simp [List.dropWhile_cons, hrun]
              rw [h1]
              have := length_dropWhile_le' isRunNode xs
              simp only [List.length_cons] at h
              omega
            have hlen' : ((x :: xs).dropWhile isRunNode).length ≤ fuel'' := by
              have h1 : (x :: xs).dropWhile isRunNode = xs.dropWhile isRunNode := by
                simp [List.dropWhile_cons, hrun]
              rw [h1]
              have := length_dropWhile_le' isRunNode xs
              simp only [List.length_cons] at h'
              omega
            rw [ih fuel'' _ hlen hlen']
        · simp only [hrun, Bool.false_eq_true, if_false]
          simp only [List.length_cons] at h h'
          rw [ih fuel'' xs (by omega) (by omega)]

theorem groupRunsSpec_nil : groupRunsSpec [] = [] := rfl

theorem groupRunsSpec_cons_qual (x : HNode) (xs : List HNode)
    (hrun : isRunNode x = true)
    (hq : 2 ≤ (((x :: xs).takeWhile isRunNode).flatMap extractImagesFromNode).length) :
    groupRunsSpec (x :: xs) =
      createMultiImageContainer
          (((x :: xs).takeWhile isRunNode).flatMap extractImagesFromNode)
          (getSourceLine ((x :: xs).takeWhile isRunNode)) ::
        groupRunsSpec ((x :: xs).dropWhile isRunNode) := by
  show groupRunsSpecFuel (x :: xs).length (x :: xs) = _
  simp only [List.length_cons, groupRunsSpecFuel, hrun, if_true]
  rw [if_pos hq]
  congr 1
  apply groupRunsSpecFuel_congr
  · have h1 : (x :: xs).dropWhile isRunNode = xs.dropWhile isRunNode := by
      simp [List.dropWhile_cons, hrun]
    rw [h1]
    exact length_dropWhile_le' isRunNode xs
  · exact le_rfl

theorem groupRunsSpec_cons_notrun (x : HNode) (xs : List HNode)
    (hrun : isRunNode x = false) :
    groupRunsSpec (x :: xs) = x :: groupRunsSpec xs := by
  show groupRunsSpecFuel (x :: xs).length (x :: xs) = _
  simp only [List.length_cons, groupRunsSpecFuel, hrun, Bool.false_eq_true, if_false]
  rfl

theorem groupRunsSpec_cons_nonqual (x : HNode) (xs : List HNode)
    (hrun : isRunNode x = true)
    (hq : ¬ 2 ≤ (((x :: xs).takeWhile isRunNode).flatMap extractImagesFromNode).length) :
    groupRunsSpec (x :: xs) =
      (x :: xs).takeWhile isRunNode ++ groupRunsSpec ((x :: xs).dropWhile isRunNode) := by
  show groupRunsSpecFuel (x :: xs).length (x :: xs) = _
  simp only [List.length_cons, groupRunsSpecFuel, hrun, if_true]
  rw [if_neg hq]
  congr 1
  apply groupRunsSpecFuel_congr
  · have h1 : (x :: xs).dropWhile isRunNode = xs.dropWhile isRunNode := by
      simp [List.dropWhile_cons, hrun]
    rw [h1]
    exact length_dropWhile_le' isRunNode xs
  · exact le_rfl

theorem groupRunsSpec_peel (x : HNode) (xs : List HNode)
    (hrun : isRunNode x = true)
    (hq : ¬ 2 ≤ (((x :: xs).takeWhile isRunNode).flatMap extractImagesFromNode).length) :
    groupRunsSpec (x :: xs) = x :: groupRunsSpec xs := by
  rw [groupRunsSpec_cons_nonqual x xs hrun hq]
  have htw : (x :: xs).takeWhile isRunNode = x :: xs.takeWhile isRunNode := by
    simp [List.takeWhile_cons, hrun]
  have hdw : (x :: xs).dropWhile isRunNode = xs.dropWhile isRunNode := by
    simp [List.dropWhile_cons, hrun]
  rw [htw, hdw, List.cons_append]
  congr 1
  have hmono : ¬ 2 ≤ ((xs.takeWhile isRunNode).flatMap extractImagesFromNode).length := by
    rw [htw] at hq
    simp only [List.flatMap_cons, List.length_append] at hq
    omega
  cases xs with
  | nil => simp [groupRunsSpec_nil]
  | cons y ys =>
    by_cases hy : isRunNode y
    · exact (groupRunsSpec_cons_nonqual y ys hy hmono).symm
    · have hy' : isRunNode y = false := by simpa using hy
      simp [List.takeWhile_cons, List.dropWhile_cons, hy']

theorem groupLoop_spec :
    ∀ (fuel : Nat) (c : List HNode) (i : Nat), c.length - i ≤ fuel →
      groupLoop fuel c i = c.take i ++ groupRunsSpec (c.drop i) := by
  intro fuel
  induction fuel with
  | zero =>
    intro c i h
    have hle : c.length ≤ i := by omega
    rw [List.drop_eq_nil_of_le hle, List.take_of_length_le hle, groupRunsSpec_nil,
      List.append_nil]
    rfl
  | succ fuel ih =>
    intro c i h
    by_cases hlt : i < c.length
    case neg =>
      have hle : c.length ≤ i := by omega
      rw [List.drop_eq_nil_of_le hle, List.take_of_length_le hle, groupRunsSpec_nil,
        List.append_nil]
      simp [groupLoop, hlt]
    case pos =>
      simp only [groupLoop]
      rw [if_pos hlt]
      obtain ⟨x, xs, hx⟩ : ∃ x xs, c.drop i = x :: xs := by
        cases hcd : c.drop i with
        | nil =>
          have := List.length_drop i c
          rw [hcd] at this
          simp at this
          omega
        | cons y ys => exact ⟨y, ys, rfl⟩
      by_cases hq :
        2 ≤ (((c.drop i).takeWhile isRunNode).flatMap extractImagesFromNode).length
      · have hne : (c.drop i).takeWhile isRunNode ≠ [] := by
          intro hnil
          rw [hnil] at hq
          simp at hq
        have hseql : 1 ≤ ((c.drop i).takeWhile isRunNode).length :=
          List.length_pos.mpr hne
        have hseqle : ((c.drop i).takeWhile isRunNode).length ≤ c.length - i := by
          have h1 := length_takeWhile_le' isRunNode (c.drop i)
          simpa using h1
        have hstep1 : (groupStep c i).1 =
            c.take i ++
              createMultiImageContainer
                (((c.drop i).takeWhile isRunNode).flatMap extractImagesFromNode)
                (getSourceLine ((c.drop i).takeWhile isRunNode)) ::
              c.drop (i + ((c.drop i).takeWhile isRunNode).length) := by
          simp only [groupStep]
          rw [if_pos hq]
        have hstep2 : (groupStep c i).2 = i + 1 := by
          simp only [groupStep]
          rw [if_pos hq]
        rw [hstep1, hstep2]
        have hm : (c.take i ++
            createMultiImageContainer
              (((c.drop i).takeWhile isRunNode).flatMap extractImagesFromNode)
              (getSourceLine ((c.drop i).takeWhile isRunNode)) ::
            c.drop (i + ((c.drop i).takeWhile isRunNode).length)).length - (i + 1) ≤ fuel := by
          simp only [List.length_append, List.length_take, List.length_cons,
            List.length_drop]
          omega
        rw [ih _ _ hm]
        have hlentake : (c.take i).length = i := by
          simp [List.length_take]
          omega
        have htake : (c.take i ++
            createMultiImageContainer
              (((c.drop i).takeWhile isRunNode).flatMap extractImagesFromNode)
              (getSourceLine ((c.drop i).takeWhile isRunNode)) ::
            c.drop (i + ((c.drop i).takeWhile isRunNode).length)).take (i + 1) =
            c.take i ++
              [createMultiImageContainer
                (((c.drop i).takeWhile isRunNode).flatMap extractImagesFromNode)
                (getSourceLine ((c.drop i).takeWhile isRunNode))] := by
          rw [List.take_append_eq_append_take, hlentake]
          rw [List.take_take]
          simp [Nat.min_def]
        have hdrop : (c.take i ++
            createMultiImageContainer
              (((c.drop i).takeWhile isRunNode).flatMap extractImagesFromNode)
              (getSourceLine ((c.drop i).takeWhile isRunNode)) ::
            c.drop (i + ((c.drop i).takeWhile isRunNode).length)).drop (i + 1) =
            c.drop (i + ((c.drop i).takeWhile isRunNode).length) := by
          rw [List.drop_append_eq_append_drop, hlentake]
          have hd1 : (c.take i).drop (i + 1) = [] := by
            apply List.drop_eq_nil_of_le
            omega
          rw [hd1]
          simp
        rw [htake, hdrop]
        have hrunx : isRunNode x = true := by
          by_contra hc
          apply hne
          rw [hx]
          simp only [List.takeWhile_cons]
          simp only [Bool.not_eq_true] at hc
          simp [hc]
        have hq' :
            2 ≤ (((x :: xs).takeWhile isRunNode).flatMap extractImagesFromNode).length := by
          rw [← hx]
          exact hq
        rw [hx, groupRunsSpec_cons_qual x xs hrunx hq']
        have hdw : (x :: xs).dropWhile isRunNode =
            c.drop (i + ((c.drop i).takeWhile isRunNode).length) := by
          rw [← hx, ← drop_length_takeWhile isRunNode (c.drop i), List.drop_drop]
        rw [hdw, ← hx]
        simp [List.cons_append]
      · have hstep1 : (groupStep c i).1 = c := by
          simp only [groupStep]
          rw [if_neg hq]
        have hstep2 : (groupStep c i).2 = i + 1 := by
          simp only [groupStep]
          rw [if_neg hq]
        rw [hstep1, hstep2, ih c (i + 1) (by omega)]
        have hxs : c.drop (i + 1) = xs := by
          have hd : c.drop (i + 1) = (c.drop i).drop 1 := by
            rw [List.drop_drop]
          rw [hd, hx]
          rfl
        have hgx := congrArg List.head? hx
        rw [List.head?_drop] at hgx
        have htake1 : c.take (i + 1) = c.take i ++ [x] := by
          rw [List.take_succ, hgx]
          rfl
        rw [htake1, hxs, hx]
        by_cases hrx : isRunNode x
        · have hq'' :
              ¬ 2 ≤ (((x :: xs).takeWhile isRunNode).flatMap extractImagesFromNode).length := by
            rw [← hx]
            exact hq
          rw [groupRunsSpec_peel x xs hrx hq'']
          simp
        · rw [groupRunsSpec_cons_notrun x xs (by simpa using hrx)]
          simp

/-- C1: the grouping pass equals its maximal-run description: on a
top-level sibling list, each maximal run of whitespace-only text nodes and
image-extracting nodes (bare imgs, or paragraphs of imgs and whitespace) is
replaced by exactly one grid container precisely when the run extracts at
least two images; runs extracting fewer (an isolated image in particular)
and nodes outside runs pass through unchanged; the emitted container
carries a data-columns attribute equal to the deterministic column function
of its image count n (2 for n in {2,4}; 3 for n = 3 or n ≥ 5; 1 otherwise)
and a data-image-count attribute equal to n. -/
theorem groupConsecutiveImages_spec :
    (∀ l : List HNode, groupConsecutiveImagesPlugin l = groupRunsSpec l) ∧
    (∀ n : Nat, resolveGridColumns n =
       if n = 2 ∨ n = 4 then 2 else if n = 3 ∨ 5 ≤ n then 3 else 1) ∧
    (∀ (images : List HNode) (sl : Option Int),
       getProp (createMultiImageContainer images sl).props "data-columns" =
         some (.str (toString (resolveGridColumns images.length))) ∧
       getProp (createMultiImageContainer images sl).props "data-image-count" =
         some (.str (toString images.length))) := by
  refine ⟨?_, ?_, ?_⟩
  · intro l
    have h := groupLoop_spec l.length l 0 (by omega)
    simpa [groupConsecutiveImagesPlugin] using h
  · intro n
    unfold resolveGridColumns
    by_cases h24 : n = 2 ∨ n = 4
    · simp [h24]
    · simp only [h24, if_false]
      by_cases h3 : n = 3
      · simp [h3]
      · by_cases h5 : 5 ≤ n
        · simp [h3, h5]
        · simp [h3, h5]
  · intro images sl
    constructor <;> simp [createMultiImageContainer, HNode.props, getProp]

/-- C2: for a grid container holding n wrapper items (n at least 2, each
wrapping an img) whose column count resolves to a positive c — from the
persisted data-columns attribute, or from the formula on n when that
attribute is absent or unparsable — the export normalizer emits a table of
exactly ceil(n / c) rows, each with exactly c cells; the cell at row-major
index k = r * c + j wraps the first img of item k in two nested generic
divs when k < n and stays empty when k ≥ n; and a non-empty
data-source-line attribute of the grid is copied onto the table root. -/
theorem convertMultiImageGridToTable_spec (tag : String) (props : Props)
    (children : List HNode) (n c : Nat)
    (hn : (nodesWithClassList "wechat-multi-image-item" children).length = n)
    (h2 : 2 ≤ n)
    (hc : gridColumnsOf props n = (c : Int))
    (h1c : 1 ≤ c)
    (himg : ∀ item ∈ nodesWithClassList "wechat-multi-image-item" children,
      (firstImgList item.childList).isSome = true) :
    ∃ (tprops : Props) (rowNodes : List HNode),
      gridToTable (HNode.element tag props children) =
        HNode.element "table" tprops rowNodes ∧
      rowNodes.length = (n + c - 1) / c ∧
      (∀ r (hr : r < rowNodes.length),
        ∃ cells : List HNode,
          rowNodes.get ⟨r, hr⟩ = HNode.element "tr" [] cells ∧
          cells.length = c ∧
          (∀ j (hj : j < cells.length),
            (r * c + j < n →
              ∃ img,
                firstImgList
                  ((nodesWithClassList "wechat-multi-image-item" children).getD
                    (r * c + j) (HNode.text "")).childList = some img ∧
                (cells.get ⟨j, hj⟩).childList =
                  [HNode.element "div" [("style", .str exportOuterStyle)]
                    [HNode.element "div" [("style", .str exportInnerStyle)]
                      [styledCloneImg img]]]) ∧
            (n ≤ r * c + j → (cells.get ⟨j, hj⟩).childList = []))) ∧
      (∀ s : String, getAttribute props "data-source-line" = some s → s ≠ "" →
        getAttribute tprops "data-source-line" = some s) := by
  have hnot : ¬ (nodesWithClassList "wechat-multi-image-item" children).length < 2 := by
    omega
  have hcolnat : ((c : Int)).toNat = c := Int.toNat_natCast c
  have hcpos : ¬ ((c : Int) ≤ 0) := by omega
  refine ⟨[("style", .str exportTableStyle)] ++
      (match getAttribute props "data-source-line" with
       | some s => if s = "" then [] else [("data-source-line", PropVal.str s)]
       | none => []),
    (List.range ((n + c - 1) / c)).map (fun rowIndex =>
      HNode.element "tr" []
        ((List.range c).map (fun columnIndex =>
          gridCell (nodesWithClassList "wechat-multi-image-item" children)
            (toFixed2Of100Over c ++ "% !important") (rowIndex * c + columnIndex)))),
    ?_, ?_, ?_, ?_⟩
  · simp only [gridToTable, hnot, if_false, hn, hc, hcolnat, hcpos]
    rw [if_neg (by omega : ¬ n < 2)]
  · simp
  · intro r hr
    simp only [List.length_map, List.length_range] at hr
    refine ⟨(List.range c).map (fun columnIndex =>
      gridCell (nodesWithClassList "wechat-multi-image-item" children)
        (toFixed2Of100Over c ++ "% !important") (r * c + columnIndex)), ?_, ?_, ?_⟩
    · rw [List.get_eq_getElem]
      simp [List.getElem_map, List.getElem_range]
    · simp
    · intro j hj
      simp only [List.length_map, List.length_range] at hj
      have hcell : ((List.range c).map (fun columnIndex =>
          gridCell (nodesWithClassList "wechat-multi-image-item" children)
            (toFixed2Of100Over c ++ "% !important") (r * c + columnIndex))).get
            ⟨j, by simpa using hj⟩ =
          gridCell (nodesWithClassList "wechat-multi-image-item" children)
            (toFixed2Of100Over c ++ "% !important") (r * c + j) := by
        rw [List.get_eq_getElem]
        simp [List.getElem_map, List.getElem_range]
      constructor
      · intro hk
        have hkl : r * c + j < (nodesWithClassList "wechat-multi-image-item" children).length := by
          omega
        have hmem : (nodesWithClassList "wechat-multi-image-item" children).getD
            (r * c + j) (HNode.text "") ∈
            nodesWithClassList "wechat-multi-image-item" children := by
          rw [List.getD_eq_getElem _ _ hkl]
          exact List.getElem_mem _
        obtain ⟨img, himgk⟩ := Option.isSome_iff_exists.mp (himg _ hmem)
        refine ⟨img, himgk, ?_⟩
        rw [hcell]
        simp only [gridCell, HNode.childList]
        simp only [HNode.childList] at himgk
        rw [if_pos hkl, himgk]
      · intro hk
        have hkl : ¬ (r * c + j <
            (nodesWithClassList "wechat-multi-image-item" children).length) := by
          omega
        rw [hcell]
        simp only [gridCell, HNode.childList]
        rw [if_neg hkl]
  · intro s hs hne
    rw [hs]
    simp only [hne, if_false]
    simp [getAttribute, getProp]

/-- Witness: a concrete grid of two wrapper items with data-columns 2 and a
source line, instantiating the export-table theorem. -/
theorem convertMultiImageGridToTable_spec_witness :
    ((nodesWithClassList "wechat-multi-image-item"
        [HNode.element "div" [("className", .str "wechat-multi-image-item")]
          [HNode.element "img" [("src", .str "a.png")] []],
         HNode.element "div" [("className", .str "wechat-multi-image-item")]
          [HNode.element "img" [("src", .str "b.png")] []]]).length = 2 ∧
     2 ≤ 2 ∧
     gridColumnsOf
       [("className", .str "wechat-multi-image-grid"), ("data-columns", .str "2"),
        ("data-source-line", .str "3")] 2 = (2 : Int) ∧
     1 ≤ 2) ∧
    (∃ (tprops : Props) (rowNodes : List HNode),
      gridToTable (HNode.element "div"
          [("className", .str "wechat-multi-image-grid"), ("data-columns", .str "2"),
           ("data-source-line", .str "3")]
          [HNode.element "div" [("className", .str "wechat-multi-image-item")]
            [HNode.element "img" [("src", .str "a.png")] []],
           HNode.element "div" [("className", .str "wechat-multi-image-item")]
            [HNode.element "img" [("src", .str "b.png")] []]]) =
        HNode.element "table" tprops rowNodes ∧
      rowNodes.length = (2 + 2 - 1) / 2 ∧
      (∀ r (hr : r < rowNodes.length),
        ∃ cells : List HNode,
          rowNodes.get ⟨r, hr⟩ = HNode.element "tr" [] cells ∧
          cells.length = 2 ∧
          (∀ j (hj : j < cells.length),
            (r * 2 + j < 2 →
              ∃ img,
                firstImgList
                  ((nodesWithClassList "wechat-multi-image-item"
                    [HNode.element "div" [("className", .str "wechat-multi-image-item")]
                      [HNode.element "img" [("src", .str "a.png")] []],
                     HNode.element "div" [("className", .str "wechat-multi-image-item")]
                      [HNode.element "img" [("src", .str "b.png")] []]]).getD
                    (r * 2 + j) (HNode.text "")).childList = some img ∧
                (cells.get ⟨j, hj⟩).childList =
                  [HNode.element "div" [("style", .str exportOuterStyle)]
                    [HNode.element "div" [("style", .str exportInnerStyle)]
                      [styledCloneImg img]]]) ∧
            (2 ≤ r * 2 + j → (cells.get ⟨j, hj⟩).childList = []))) ∧
      (∀ s : String,
        getAttribute
          [("className", .str "wechat-multi-image-grid"), ("data-columns", .str "2"),
           ("data-source-line", .str "3")] "data-source-line" = some s → s ≠ "" →
        getAttribute tprops "data-source-line" = some s)) :=
  ⟨⟨by decide, by decide, by decide, by decide⟩,
   convertMultiImageGridToTable_spec "div"
     [("className", .str "wechat-multi-image-grid"), ("data-columns", .str "2"),
      ("data-source-line", .str "3")]
     [HNode.element "div" [("className", .str "wechat-multi-image-item")]
       [HNode.element "img" [("src", .str "a.png")] []],
      HNode.element "div" [("className", .str "wechat-multi-image-item")]
       [HNode.element "img" [("src", .str "b.png")] []]]
     2 2 (by decide) (by decide) (by decide) (by decide) (by decide)⟩
